import Mathlib

/-!
# The directory-backed storage driver (`lxd/storage/drivers/driver_dir.go`)

A shallow embedding of the volume lifecycle orchestrator and the project-quota
subsystem of the `dir` driver.  Every Go function that has side effects becomes
a function from a `World` to a new `World` together with the Go `error` value
(`Option Err`, `none` for `nil`).  The `World` holds the directory tree, the
quota table and the ordered list of calls made to the collaborators.

Collaborators that are not part of the driver file (metadata resolver, size
parser, `quota.Supported`, rsync, mounting, external commands, directory
creation) take their outcome from an `Env`.  Updates of the quota table and
removals from the tree are total on the in-memory state.
-/

namespace DirDriver

/-! ## Data model -/

/-- Volume kinds of the driver (`VolumeTypeCustom`, `VolumeTypeImage`, ...). -/
inductive VolumeType
  | custom
  | image
  | container
  | vm
  deriving DecidableEq, Repr

/-- Content kinds (`ContentTypeFS`, `ContentTypeBlock`). -/
inductive ContentType
  | fs
  | block
  deriving DecidableEq, Repr

/-- Error values.  The driver's own errors are separate constructors; failures
handed through from collaborators are `external`; `wrapped` is `fmt.Errorf`
with a message prefix around another error. -/
inductive Err
  | missingVolumeID
  | hasSnapshots
  | contentTypeNotSupported
  | migrationTypeNotSupported
  | snapshotNotFound
  | notImplemented
  | wrapped (ctx : String) (inner : Err)
  | external (msg : String)
  deriving DecidableEq, Repr

/-- Go maps from string to string. -/
abbrev Config := List (String × String)

/-- Map read `m[k]`: the empty string when the key is absent. -/
def Config.get (m : Config) (k : String) : String :=
  (m.lookup k).getD ""

/-- Presence test of the two-valued map read `_, ok := m[k]`. -/
def Config.has (m : Config) (k : String) : Bool :=
  (m.lookup k).isSome

/-- A volume: pool, kind, content kind, name and volume-local config. -/
structure Volume where
  pool : String
  volType : VolumeType
  contentType : ContentType
  name : String
  config : Config
  deriving DecidableEq, Repr

/-- The receiver `d *dir`: the pool name and the pool configuration. -/
structure Driver where
  name : String
  config : Config
  deriving DecidableEq, Repr

/-- Content of one managed directory. -/
abbrev Tree := List String

/-- The directory tree: managed directories and their content. -/
abbrev FsState := List (String × Tree)

/-- Calls made to the collaborators, in the order they are made. -/
inductive Event
  | getVolID (t : VolumeType) (name : String)
  | supported (path : String)
  | setProject (path : String) (id : Nat)
  | setProjectQuota (path : String) (id : Nat) (bytes : Int)
  | parseSize (size : String)
  | mkdirAll (path : String)
  | mkdir (path : String)
  | removeAll (path : String)
  | remove (path : String)
  | readDir (path : String)
  | localCopy (src dst : String)
  | recv (path : String)
  | fill (path rootBlockPath : String)
  | mountReadOnly (path : String)
  | unmount (path : String)
  | runCommand (args : List String)
  deriving DecidableEq, Repr

/-- The state the driver acts on. -/
structure World where
  fs : FsState
  proj : String → Nat
  limit : Nat → Int
  trace : List Event

/-- The environment: what the collaborators answer.  A failure of a collaborator
is its message; the driver sees it as `Err.external`. -/
structure Env where
  /-- The metadata resolver `d.getVolID`. -/
  getVolID : VolumeType → String → Except String Int
  /-- The query `quota.Supported`. -/
  supported : String → Except String Bool
  /-- The parser `units.ParseByteSizeString` on non-empty input. -/
  parseSize : String → Except String Int
  /-- Failure of a creating, copying, mounting or command call, given the
  calls made so far. -/
  fail : List Event → Event → Option String
  /-- The tree a peer sends on the next receive, given the calls made so far. -/
  incoming : List Event → Tree

/-- A filler callback: acts on the tree, may fail (with its message) after a
partial effect. -/
structure VolumeFiller where
  Fill : Option (String → String → FsState → FsState × Option String)

/-! ## Path layout and name helpers -/

/-- Modelled from the spec: the parent/label split `shared.InstanceGetParentAndSnapshotName`,
which cuts the name at its first `/`. -/
def instanceGetParentAndSnapshotName (name : String) : String × String × Bool :=
  match name.toList.span (fun c => c != '/') with
  | (_, []) => (name, "", false)
  | (a, _ :: b) => (String.mk a, String.mk b, true)

/-- Modelled from the spec: `shared.IsSnapshot`, a name with a `/` in it. -/
def isSnapshotName (name : String) : Bool :=
  (instanceGetParentAndSnapshotName name).2.2

/-- Modelled from the spec: `GetSnapshotVolumeName`, the name `parent/label`. -/
def getSnapshotVolumeName (parentName snapshotName : String) : String :=
  parentName ++ "/" ++ snapshotName

/-- Directory name of a volume kind. -/
def VolumeType.dir : VolumeType → String
  | .custom => "custom"
  | .image => "images"
  | .container => "containers"
  | .vm => "virtual-machines"

/-- Modelled from the spec: `GetPoolMountPath`. -/
def getPoolMountPath (poolName : String) : String :=
  "/var/lib/lxd/storage-pools/" ++ poolName

/-- Modelled from the spec: `GetVolumeMountPath`, a pure function of pool, kind
and name; snapshots live under the `-snapshots` directory of their kind. -/
def getVolumeMountPath (poolName : String) (volType : VolumeType) (volName : String) : String :=
  if isSnapshotName volName then
    getPoolMountPath poolName ++ "/" ++ volType.dir ++ "-snapshots/" ++ volName
  else
    getPoolMountPath poolName ++ "/" ++ volType.dir ++ "/" ++ volName

/-- Modelled from the spec: `GetVolumeSnapshotDir`, the directory holding the
snapshots of a volume (of the parent, when given a snapshot name). -/
def getVolumeSnapshotDir (poolName : String) (volType : VolumeType) (volName : String) : String :=
  getPoolMountPath poolName ++ "/" ++ volType.dir ++ "-snapshots/" ++
    (instanceGetParentAndSnapshotName volName).1

/-- Modelled from the spec: `Volume.MountPath`. -/
def Volume.MountPath (v : Volume) : String :=
  getVolumeMountPath v.pool v.volType v.name

/-- Modelled from the spec: `Volume.IsSnapshot`. -/
def Volume.IsSnapshot (v : Volume) : Bool :=
  isSnapshotName v.name

/-- Modelled from the spec: `NewVolume`. -/
def NewVolume (d : Driver) (poolName : String) (volType : VolumeType)
    (contentType : ContentType) (volName : String) (config : Config) : Volume :=
  let _ := d
  { pool := poolName, volType := volType, contentType := contentType,
    name := volName, config := config }

/-! ## The tree and the quota table -/

/-- Append a call to the trace. -/
def World.log (w : World) (e : Event) : World :=
  { w with trace := w.trace ++ [e] }

/-- Whether `q` lies strictly below the directory `p`. -/
def isUnder (p q : String) : Bool :=
  (p ++ "/").toList.isPrefixOf q.toList

/-- The check `shared.PathExists`: the path is a managed directory or an
ancestor of one. -/
def pathExists (fs : FsState) (p : String) : Bool :=
  fs.any (fun e => e.1 == p || isUnder p e.1)

/-- The call `os.RemoveAll` on the tree: the path and everything below it go. -/
def fsRemoveAll (fs : FsState) (p : String) : FsState :=
  fs.filter (fun e => !(e.1 == p || isUnder p e.1))

/-- The call `os.Remove` on the tree. -/
def fsRemove (fs : FsState) (p : String) : FsState :=
  fs.filter (fun e => !(e.1 == p))

/-- Creating a directory on the tree: nothing changes when it is there. -/
def fsMkdir (fs : FsState) (p : String) : FsState :=
  if fs.any (fun e => e.1 == p) then fs else fs ++ [(p, [])]

/-- The content of a managed directory. -/
def fsTree (fs : FsState) (p : String) : Option Tree :=
  fs.lookup p

/-- Overwrite the content of a directory, creating it when missing. -/
def fsSetTree (fs : FsState) (p : String) (t : Tree) : FsState :=
  if fs.any (fun e => e.1 == p) then
    fs.map (fun e => if e.1 == p then (e.1, t) else e)
  else fs ++ [(p, t)]

/-- The check `shared.PathIsEmpty`. -/
def pathIsEmpty (fs : FsState) (p : String) : Bool :=
  !(fs.any (fun e => isUnder p e.1)) && (fsTree fs p).getD [] == []

/-- The direct children of a directory that are directories themselves. -/
def fsChildren (fs : FsState) (p : String) : List String :=
  fs.filterMap (fun e =>
    if isUnder p e.1 then
      let rest := e.1.toList.drop (p ++ "/").toList.length
      if rest.all (fun c => c != '/') then some (String.mk rest) else none
    else none)

/-- The call `os.RemoveAll`. -/
def removeAll (p : String) (w : World) : World × Option Err :=
  ({ w.log (.removeAll p) with fs := fsRemoveAll w.fs p }, none)

/-- The call `os.Remove`. -/
def remove (p : String) (w : World) : World × Option Err :=
  ({ w.log (.remove p) with fs := fsRemove w.fs p }, none)

/-- The call `os.MkdirAll` (also `os.Mkdir`), which the environment may fail. -/
def mkdirAll (env : Env) (p : String) (w : World) : World × Option Err :=
  match env.fail w.trace (.mkdirAll p) with
  | some e => (w.log (.mkdirAll p), some (.external e))
  | none => ({ w.log (.mkdirAll p) with fs := fsMkdir w.fs p }, none)

/-- The call `os.Mkdir`. -/
def mkdir (env : Env) (p : String) (w : World) : World × Option Err :=
  match env.fail w.trace (.mkdir p) with
  | some e => (w.log (.mkdir p), some (.external e))
  | none => ({ w.log (.mkdir p) with fs := fsMkdir w.fs p }, none)

/-- Modelled from the spec: `Volume.CreateMountPath`, which creates the mount
path of the volume. -/
def Volume.CreateMountPath (env : Env) (v : Volume) (w : World) : World × Option Err :=
  mkdirAll env v.MountPath w

/-- Whether `q` is the directory `p` or lies below it. -/
def atOrUnder (p q : String) : Bool :=
  q == p || isUnder p q

/-- The tree at and below a directory: every entry at or below `p`, with its
path taken relative to `p` (empty for `p` itself, else starting with `/`). -/
def subtree (fs : FsState) (p : String) : List (String × Tree) :=
  fs.filterMap (fun e =>
    if atOrUnder p e.1 then some (String.mk (e.1.toList.drop p.toList.length), e.2)
    else none)

/-- Modelled from the spec: the recursive tree copy with deletion of what is
extraneous at the destination.  Everything at and below the destination goes
and the tree at and below the source is put in its place.  A source that lies
inside the destination is deleted with the rest of the destination before it is
read, which leaves the destination empty. -/
def fsCopyTree (fs : FsState) (src dst : String) : FsState :=
  if isUnder dst src then fsRemoveAll fs dst ++ [(dst, [])]
  else fsRemoveAll fs dst ++ (subtree fs src).map (fun e => (dst ++ e.1, e.2))

/-- Modelled from the spec: the tree copy `rsync.LocalCopy`; the destination
ends up exactly like the source, recursively, and a missing source is a failure. -/
def localCopy (env : Env) (src dst : String) (w : World) : World × Option Err :=
  match env.fail w.trace (.localCopy src dst) with
  | some e => (w.log (.localCopy src dst), some (.external e))
  | none =>
    if pathExists w.fs src then
      ({ w.log (.localCopy src dst) with fs := fsCopyTree w.fs src dst }, none)
    else (w.log (.localCopy src dst), some (.external "rsync: source missing"))

/-- Modelled from the spec: the quota mechanism query `quota.Supported`. -/
def quotaSupported (env : Env) (p : String) (w : World) : World × Except Err Bool :=
  (w.log (.supported p), (env.supported p).mapError .external)

/-- Modelled from the spec: `quota.SetProject`, assigning a path to a project id. -/
def quotaSetProject (p : String) (id : Nat) (w : World) : World × Option Err :=
  ({ w.log (.setProject p id) with proj := Function.update w.proj p id }, none)

/-- Modelled from the spec: `quota.SetProjectQuota`, the byte limit of a project id. -/
def quotaSetProjectQuota (p : String) (id : Nat) (bytes : Int) (w : World) : World × Option Err :=
  ({ w.log (.setProjectQuota p id bytes) with limit := Function.update w.limit id bytes }, none)

/-- Modelled from the spec: `units.ParseByteSizeString`; the empty string is zero
bytes, anything else is parsed by the environment. -/
def parseByteSizeString (env : Env) (size : String) (w : World) : World × Except Err Int :=
  (w.log (.parseSize size),
    if size = "" then .ok 0 else (env.parseSize size).mapError .external)

/-- The resolver `d.getVolID`. -/
def getVolID (env : Env) (t : VolumeType) (name : String) (w : World) : World × Except Err Int :=
  (w.log (.getVolID t name), (env.getVolID t name).mapError .external)

/-- Whether `quota.Supported` reports, without error, that the filesystem of the
path supports project quotas. -/
def Env.quotaOn (env : Env) (p : String) : Bool :=
  match env.supported p with
  | .ok true => true
  | _ => false

/-! ## Quota subsystem -/

/-- Signed 64-bit wrap-around of Go's `int64` arithmetic. -/
def wrapInt64 (x : Int) : Int :=
  (x + 9223372036854775808) % 18446744073709551616 - 9223372036854775808

/-- The function `quotaProjectID`: `uint32(volID + 10000)`. -/
def quotaProjectID (volID : Int) : Nat :=
  (wrapInt64 (volID + 10000) % 4294967296).toNat

/-- The function `initQuota`. -/
def initQuota (env : Env) (path : String) (volID : Int) (w : World) : World × Option Err :=
  if volID = 0 then (w, some .missingVolumeID)
  else
    match quotaSupported env path w with
    | (w1, .error _) => (w1, none)
    | (w1, .ok false) => (w1, none)
    | (w1, .ok true) =>
      match quotaSetProject path (quotaProjectID volID) w1 with
      | (w2, some e) => (w2, some e)
      | (w2, none) => (w2, none)

/-- The size string `setQuota` parses: the pool's `volume.size` when the argument
is empty or `0`. -/
def quotaSize (d : Driver) (size : String) : String :=
  if size = "" ∨ size = "0" then d.config.get "volume.size" else size

/-- The function `setQuota`.  The warning it logs when quotas are unsupported and
the size is positive does not act on the world and is left out. -/
def setQuota (env : Env) (d : Driver) (path : String) (volID : Int) (size : String)
    (w : World) : World × Option Err :=
  if volID = 0 then (w, some .missingVolumeID)
  else
    let size := if size = "" ∨ size = "0" then d.config.get "volume.size" else size
    match parseByteSizeString env size w with
    | (w1, .error e) => (w1, some e)
    | (w1, .ok sizeBytes) =>
      match quotaSupported env path w1 with
      | (w2, .error _) => (w2, none)
      | (w2, .ok false) => (w2, none)
      | (w2, .ok true) =>
        match quotaSetProjectQuota path (quotaProjectID volID) sizeBytes w2 with
        | (w3, some e) => (w3, some e)
        | (w3, none) => (w3, none)

/-- The function `deleteQuota`. -/
def deleteQuota (env : Env) (path : String) (volID : Int) (w : World) : World × Option Err :=
  if volID = 0 then (w, some .missingVolumeID)
  else
    match quotaSupported env path w with
    | (w1, .error _) => (w1, none)
    | (w1, .ok false) => (w1, none)
    | (w1, .ok true) =>
      match quotaSetProject path 0 w1 with
      | (w2, some e) => (w2, some e)
      | (w2, none) =>
        match quotaSetProjectQuota path (quotaProjectID volID) 0 w2 with
        | (w3, some e) => (w3, some e)
        | (w3, none) => (w3, none)

/-! ## Snapshot manager -/

/-- Modelled from the spec: `createParentSnapshotDirIfMissing`, which creates the
snapshot directory of the parent lazily. -/
def createParentSnapshotDirIfMissing (env : Env) (poolName : String) (volType : VolumeType)
    (volName : String) (w : World) : World × Option Err :=
  let snapshotsPath := getVolumeSnapshotDir poolName volType volName
  if !pathExists w.fs snapshotsPath then mkdir env snapshotsPath w else (w, none)

/-- Modelled from the spec: `deleteParentSnapshotDirIfEmpty`, which removes the
snapshot directory of the parent once nothing is left in it. -/
def deleteParentSnapshotDirIfEmpty (poolName : String) (volType : VolumeType)
    (volName : String) (w : World) : World × Option Err :=
  let snapshotsPath := getVolumeSnapshotDir poolName volType volName
  if pathExists w.fs snapshotsPath then
    if pathIsEmpty w.fs snapshotsPath then
      match remove snapshotsPath w with
      | (w1, some e) => (w1, some (.wrapped "Failed to remove" e))
      | (w1, none) => (w1, none)
    else (w, none)
  else (w, none)

/-- The function `CreateVolumeSnapshot`. -/
def CreateVolumeSnapshot (env : Env) (d : Driver) (snapVol : Volume) (w : World) :
    World × Option Err :=
  let parentName := (instanceGetParentAndSnapshotName snapVol.name).1
  let srcPath := getVolumeMountPath d.name snapVol.volType parentName
  let snapPath := snapVol.MountPath
  match createParentSnapshotDirIfMissing env d.name snapVol.volType parentName w with
  | (w1, some e) => (w1, some e)
  | (w1, none) =>
    match snapVol.CreateMountPath env w1 with
    | (w2, some e) => (w2, some e)
    | (w2, none) =>
      -- from here on the deferred `os.RemoveAll(snapPath)` runs on every failure
      match localCopy env srcPath snapPath w2 with
      | (w3, some e) => ((removeAll snapPath w3).1, some e)
      | (w3, none) => (w3, none)

/-- The function `DeleteVolumeSnapshot`. -/
def DeleteVolumeSnapshot (d : Driver) (snapVol : Volume) (w : World) : World × Option Err :=
  let snapPath := snapVol.MountPath
  match removeAll snapPath w with
  | (w1, some e) => (w1, some e)
  | (w1, none) =>
    let parentName := (instanceGetParentAndSnapshotName snapVol.name).1
    match deleteParentSnapshotDirIfEmpty d.name snapVol.volType parentName w1 with
    | (w2, some e) => (w2, some e)
    | (w2, none) => (w2, none)

/-- Modelled from the spec: `d.vfsVolumeSnapshots`, which enumerates the entries of
the volume's snapshot directory (none when the directory is missing). -/
def vfsVolumeSnapshots (d : Driver) (vol : Volume) (w : World) :
    World × Except Err (List String) :=
  let snapshotDir := getVolumeSnapshotDir d.name vol.volType vol.name
  (w.log (.readDir snapshotDir), .ok (fsChildren w.fs snapshotDir))

/-- The function `VolumeSnapshots`. -/
def VolumeSnapshots (d : Driver) (vol : Volume) (w : World) :
    World × Except Err (List String) :=
  vfsVolumeSnapshots d vol w

/-- Modelled from the spec: `Volume.Snapshots`, the snapshot volumes of a volume
that is not a snapshot itself. -/
def Volume.Snapshots (d : Driver) (v : Volume) (w : World) : World × Except Err (List Volume) :=
  if v.IsSnapshot then (w, .error (.external "Volume is a snapshot"))
  else
    match VolumeSnapshots d v w with
    | (w1, .error e) => (w1, .error e)
    | (w1, .ok snapshots) =>
      (w1, .ok (snapshots.map (fun snapName =>
        NewVolume d v.pool v.volType v.contentType
          (getSnapshotVolumeName v.name snapName) v.config)))

/-! ## Mounting -/

/-- Modelled from the spec: `mountReadOnly`, the read-only bind mount of a
snapshot; reports that a mount was made. -/
def mountReadOnly (env : Env) (srcPath dstPath : String) (w : World) :
    World × Except Err Bool :=
  let _ := srcPath
  match env.fail w.trace (.mountReadOnly dstPath) with
  | some e => (w.log (.mountReadOnly dstPath), .error (.external e))
  | none => (w.log (.mountReadOnly dstPath), .ok true)

/-- Modelled from the spec: `forceUnmount`. -/
def forceUnmount (path : String) (w : World) : World × Except Err Bool :=
  (w.log (.unmount path), .ok true)

/-- The function `MountVolume`: nothing to mount for a directory volume. -/
def MountVolume (vol : Volume) (w : World) : World × Except Err Bool :=
  let _ := vol
  (w, .ok false)

/-- The function `MountVolumeSnapshot`. -/
def MountVolumeSnapshot (env : Env) (snapVol : Volume) (w : World) : World × Except Err Bool :=
  let snapPath := snapVol.MountPath
  mountReadOnly env snapPath snapPath w

/-- The function `UnmountVolume`. -/
def UnmountVolume (vol : Volume) (w : World) : World × Except Err Bool :=
  let _ := vol
  (w, .ok false)

/-- The function `UnmountVolumeSnapshot`. -/
def UnmountVolumeSnapshot (snapVol : Volume) (w : World) : World × Except Err Bool :=
  let snapPath := snapVol.MountPath
  forceUnmount snapPath w

/-- Modelled from the spec: `Volume.MountTask`, which mounts the volume (read-only
for a snapshot), runs the task on its mount path and unmounts what it mounted.
The value of type `σ` stands for the variables the Go closure assigns to. -/
def Volume.MountTask {σ : Type} (env : Env) (v : Volume)
    (task : String → σ → World → σ × World × Option Err) (s : σ) (w : World) :
    σ × World × Option Err :=
  if v.IsSnapshot then
    match MountVolumeSnapshot env v w with
    | (w1, .error e) => (s, w1, some e)
    | (w1, .ok ourMount) =>
      match task v.MountPath s w1 with
      | (s2, w2, r) =>
        if ourMount then (s2, (UnmountVolumeSnapshot v w2).1, r) else (s2, w2, r)
  else
    match MountVolume v w with
    | (w1, .error e) => (s, w1, some e)
    | (w1, .ok ourMount) =>
      match task v.MountPath s w1 with
      | (s2, w2, r) =>
        if ourMount then (s2, (UnmountVolume v w2).1, r) else (s2, w2, r)

/-! ## Volume lifecycle orchestrator -/

/-- The function `HasVolume`. -/
def HasVolume (vol : Volume) (w : World) : Bool :=
  if pathExists w.fs vol.MountPath then true else false

/-- The components of a path between its slashes. -/
def splitSlash : List Char → List (List Char)
  | [] => [[]]
  | c :: cs =>
    if c = '/' then [] :: splitSlash cs
    else
      match splitSlash cs with
      | [] => [[c]]
      | x :: xs => (c :: x) :: xs

/-- One step of `filepath.Clean` over the components seen so far (last first):
empty and `.` components go, `..` takes back the component before it. -/
def cleanStep (rooted : Bool) (done : List (List Char)) (comp : List Char) : List (List Char) :=
  if comp = [] ∨ comp = ['.'] then done
  else if comp = ['.', '.'] then
    match done with
    | [] => if rooted then [] else [comp]
    | x :: xs => if x = ['.', '.'] then comp :: x :: xs else xs
  else comp :: done

/-- Modelled from the spec: `filepath.Clean` on a slash-separated path. -/
def cleanPath (path : String) : String :=
  let rooted := path.toList.head? = some '/'
  let comps := ((splitSlash path.toList).foldl (cleanStep rooted) []).reverse
  let body := String.mk (List.intercalate ['/'] comps)
  if rooted then "/" ++ body
  else if comps = [] then "." else body

/-- Modelled from the spec: `filepath.Join` of a directory and an entry: the
non-empty elements joined by a slash and cleaned. -/
def joinPath (dir entry : String) : String :=
  if dir = "" ∧ entry = "" then ""
  else if dir = "" then cleanPath entry
  else if entry = "" then cleanPath dir
  else cleanPath (dir ++ "/" ++ entry)

/-- The function `GetVolumeDiskPath`. -/
def GetVolumeDiskPath (vol : Volume) : Except Err String :=
  .ok (joinPath vol.MountPath "root.img")

/-- The function `setupInitialQuota`; the function it hands back undoes the quota. -/
def setupInitialQuota (env : Env) (d : Driver) (vol : Volume) (w : World) :
    World × Except Err (Option (World → World)) :=
  let size := if vol.config.get "size" ≠ "" then vol.config.get "size"
    else d.config.get "volume.size"
  let volPath := vol.MountPath
  match getVolID env vol.volType vol.name w with
  | (w1, .error e) => (w1, .error e)
  | (w1, .ok volID) =>
    let revertFunc : World → World := fun w => (deleteQuota env volPath volID w).1
    match initQuota env volPath volID w1 with
    | (w2, some e) => (w2, .error e)
    | (w2, none) =>
      -- from here on the deferred `revertFunc` runs while `revert` is set
      match setQuota env d volPath volID size w2 with
      | (w3, some e) => (revertFunc w3, .error e)
      | (w3, none) => (w3, .ok (some revertFunc))

/-- The filler step of `CreateVolume`: `filler.Fill(volPath, rootBlockPath)` when a
filler with a `Fill` function is supplied. -/
def runFiller (filler : Option VolumeFiller) (path rootBlockPath : String) (w : World) :
    World × Option Err :=
  match filler with
  | none => (w, none)
  | some f =>
    match f.Fill with
    | none => (w, none)
    | some fill =>
      ({ w.log (.fill path rootBlockPath) with fs := (fill path rootBlockPath w.fs).1 },
        (fill path rootBlockPath w.fs).2.map .external)

/-- Modelled from the spec: `shared.RunCommand` of the disk-image tool; `creates`
is the file the command leaves behind. -/
def runCommand (env : Env) (args : List String) (creates : Option String) (w : World) :
    World × Option Err :=
  match env.fail w.trace (.runCommand args) with
  | some e => (w.log (.runCommand args), some (.external e))
  | none =>
    match creates with
    | none => (w.log (.runCommand args), none)
    | some p => ({ w.log (.runCommand args) with fs := fsMkdir w.fs p }, none)

/-- The block-volume step of `CreateVolume`: size the raw image. -/
def createVolumeBlock (env : Env) (d : Driver) (vol : Volume) (rootBlockPath : String)
    (w : World) : World × Option Err :=
  let blockSize := if vol.config.get "size" ≠ "" then vol.config.get "size"
    else d.config.get "volume.size"
  let blockSize := if blockSize = "" then "10GB" else blockSize
  match parseByteSizeString env blockSize w with
  | (w1, .error e) => (w1, some e)
  | (w1, .ok blockSizeBytes) =>
    if pathExists w1.fs rootBlockPath then
      match runCommand env ["qemu-img", "resize", "-f", "raw", rootBlockPath,
          toString blockSizeBytes] none w1 with
      | (w2, some e) => (w2, some (.wrapped "Failed resizing disk image" e))
      | (w2, none) => (w2, none)
    else
      match runCommand env ["qemu-img", "create", "-f", "raw", rootBlockPath,
          toString blockSizeBytes] (some rootBlockPath) w1 with
      | (w2, some e) => (w2, some (.wrapped "Failed creating disk image" e))
      | (w2, none) => (w2, none)

/-- The part of `CreateVolume` after the quota setup: the filler, then the
block-volume step. -/
def createVolumeFill (env : Env) (d : Driver) (vol : Volume) (filler : Option VolumeFiller)
    (volPath rootBlockPath : String) (w : World) : World × Option Err :=
  match runFiller filler volPath rootBlockPath w with
  | (w1, some e) => (w1, some e)
  | (w1, none) =>
    if vol.contentType = .block then createVolumeBlock env d vol rootBlockPath w1
    else (w1, none)

/-- The function `CreateVolume`.  The deferred functions run last-in first-out on
every failing return: the quota revert (registered second) before the removal of
the mount path (registered first). -/
def CreateVolume (env : Env) (d : Driver) (vol : Volume) (filler : Option VolumeFiller)
    (w : World) : World × Option Err :=
  let volPath := vol.MountPath
  match vol.CreateMountPath env w with
  | (w1, some e) => (w1, some e)
  | (w1, none) =>
    let revertPath : World → World := fun w => (removeAll volPath w).1
    if vol.contentType = .block then
      match GetVolumeDiskPath vol with
      | .error e => (revertPath w1, some e)
      | .ok rootBlockPath =>
        match createVolumeFill env d vol filler volPath rootBlockPath w1 with
        | (w2, some e) => (revertPath w2, some e)
        | (w2, none) => (w2, none)
    else
      match setupInitialQuota env d vol w1 with
      | (w2, .error e) => (revertPath w2, some e)
      | (w2, .ok revertFunc) =>
        match createVolumeFill env d vol filler volPath "" w2 with
        | (w3, some e) =>
          match revertFunc with
          | some f => (revertPath (f w3), some e)
          | none => (revertPath w3, some e)
        | (w3, none) => (w3, none)

/-- The deferred cleanup of `copyVolume` and `CreateVolumeFromMigration` for a
non-nil `revertSnaps`: delete each listed snapshot in list order (errors are
dropped), then remove the volume path. -/
def revertSnapshots (d : Driver) (vol : Volume) (volPath : String) (revertSnaps : List String)
    (w : World) : World :=
  (removeAll volPath
    (revertSnaps.foldl (fun w snapName =>
      let fullSnapName := getSnapshotVolumeName vol.name snapName
      let snapVol := NewVolume d d.name vol.volType vol.contentType fullSnapName vol.config
      (DeleteVolumeSnapshot d snapVol w).1) w)).1

/-- The snapshot loop of `copyVolume`.  The error of the source snapshot's
`MountTask` is assigned to `err` and then overwritten by the result of
`CreateVolumeSnapshot` without being looked at. -/
def copyVolumeSnapshots (env : Env) (d : Driver) (vol : Volume) (mountPath : String) :
    List Volume → List String → World → List String × World × Option Err
  | [], revertSnaps, w => (revertSnaps, w, none)
  | srcSnapshot :: rest, revertSnaps, w =>
    let snapName := (instanceGetParentAndSnapshotName srcSnapshot.name).2.1
    match srcSnapshot.MountTask env
        (fun srcMountPath (_ : Unit) w => ((), localCopy env srcMountPath mountPath w)) () w with
    | (_, w1, _) =>
      let fullSnapName := getSnapshotVolumeName vol.name snapName
      let snapVol := NewVolume d d.name vol.volType vol.contentType fullSnapName vol.config
      match CreateVolumeSnapshot env d snapVol w1 with
      | (w2, some e) => (revertSnaps, w2, some e)
      | (w2, none) => copyVolumeSnapshots env d vol mountPath rest (revertSnaps ++ [snapName]) w2

/-- The task `copyVolume` runs under the destination's `MountTask`. -/
def copyVolumeTask (env : Env) (d : Driver) (vol srcVol : Volume) (srcSnapshots : List Volume)
    (volID : Int) (volPath mountPath : String) (revertSnaps : List String) (w : World) :
    List String × World × Option Err :=
  match (if srcSnapshots.length > 0 ∧ !srcVol.IsSnapshot then
      copyVolumeSnapshots env d vol mountPath srcSnapshots revertSnaps w
    else (revertSnaps, w, none)) with
  | (revertSnaps, w1, some e) => (revertSnaps, w1, some e)
  | (revertSnaps, w1, none) =>
    match initQuota env volPath volID w1 with
    | (w2, some e) => (revertSnaps, w2, some e)
    | (w2, none) =>
      match setQuota env d volPath volID (vol.config.get "size") w2 with
      | (w3, some e) => (revertSnaps, w3, some e)
      | (w3, none) =>
        match srcVol.MountTask env
            (fun srcMountPath (_ : Unit) w => ((), localCopy env srcMountPath mountPath w))
            () w3 with
        | (_, w4, r) => (revertSnaps, w4, r)

/-- The function `copyVolume`. -/
def copyVolume (env : Env) (d : Driver) (vol srcVol : Volume) (srcSnapshots : List Volume)
    (w : World) : World × Option Err :=
  if vol.contentType ≠ .fs ∨ srcVol.contentType ≠ .fs then (w, some .contentTypeNotSupported)
  else
    match getVolID env vol.volType vol.name w with
    | (w1, .error e) => (w1, some e)
    | (w1, .ok volID) =>
      let volPath := vol.MountPath
      match vol.CreateMountPath env w1 with
      | (w2, some e) => (w2, some e)
      | (w2, none) =>
        -- `revertSnaps := []string{}`; the deferred cleanup runs unless it is nil
        match vol.MountTask env (copyVolumeTask env d vol srcVol srcSnapshots volID volPath)
            [] w2 with
        | (revertSnaps, w3, some e) => (revertSnapshots d vol volPath revertSnaps w3, some e)
        | (_, w3, none) => (w3, none)

/-- The function `CreateVolumeFromCopy`. -/
def CreateVolumeFromCopy (env : Env) (d : Driver) (vol srcVol : Volume) (copySnapshots : Bool)
    (w : World) : World × Option Err :=
  if copySnapshots ∧ !srcVol.IsSnapshot then
    match srcVol.Snapshots d w with
    | (w1, .error e) => (w1, some e)
    | (w1, .ok srcSnapshots) => copyVolume env d vol srcVol srcSnapshots w1
  else copyVolume env d vol srcVol [] w

/-- The function `RefreshVolume`. -/
def RefreshVolume (env : Env) (d : Driver) (vol srcVol : Volume) (srcSnapshots : List Volume)
    (w : World) : World × Option Err :=
  copyVolume env d vol srcVol srcSnapshots w

/-- Transfer modes of a migration (`migration.MigrationFSType`). -/
inductive MigrationFSType
  | rsync
  | btrfs
  | zfs
  | rbd
  deriving DecidableEq, Repr

/-- The fields of `migration.VolumeTargetArgs` the driver reads. -/
structure VolumeTargetArgs where
  Snapshots : List String
  FSType : MigrationFSType
  TrackProgress : Bool
  Live : Bool
  deriving DecidableEq, Repr

/-- Modelled from the spec: `shared.AddSlash`. -/
def addSlash (path : String) : String :=
  if path.toList.getLast? = some '/' then path else path ++ "/"

/-- The directory a path with a trailing slash names. -/
def dropSlash (path : String) : String :=
  if path.toList.getLast? = some '/' then String.mk path.toList.dropLast else path

/-- Modelled from the spec: the receive `rsync.Recv`, which writes what the peer
sends into the directory the slash-terminated path names. -/
def rsyncRecv (env : Env) (path : String) (w : World) : World × Option Err :=
  match env.fail w.trace (.recv path) with
  | some e => (w.log (.recv path), some (.external e))
  | none =>
    ({ w.log (.recv path) with fs := fsSetTree w.fs (dropSlash path) (env.incoming w.trace) },
      none)

/-- The snapshot loop of `CreateVolumeFromMigration`: receive, then register. -/
def recvSnapshots (env : Env) (d : Driver) (vol : Volume) (path : String) :
    List String → List String → World → List String × World × Option Err
  | [], revertSnaps, w => (revertSnaps, w, none)
  | snapName :: rest, revertSnaps, w =>
    match rsyncRecv env path w with
    | (w1, some e) => (revertSnaps, w1, some e)
    | (w1, none) =>
      let fullSnapshotName := getSnapshotVolumeName vol.name snapName
      let snapshotVol :=
        NewVolume d d.name vol.volType vol.contentType fullSnapshotName vol.config
      match CreateVolumeSnapshot env d snapshotVol w1 with
      | (w2, some e) => (revertSnaps, w2, some e)
      | (w2, none) => recvSnapshots env d vol path rest (revertSnaps ++ [snapName]) w2

/-- The task `CreateVolumeFromMigration` runs under the volume's `MountTask`. -/
def migrationTask (env : Env) (d : Driver) (vol : Volume) (volTargetArgs : VolumeTargetArgs)
    (preFiller : Option VolumeFiller) (volID : Int) (volPath mountPath : String)
    (revertSnaps : List String) (w : World) : List String × World × Option Err :=
  let path := addSlash mountPath
  match runFiller preFiller path "" w with
  | (w1, some e) => (revertSnaps, w1, some e)
  | (w1, none) =>
    match recvSnapshots env d vol path volTargetArgs.Snapshots revertSnaps w1 with
    | (revertSnaps, w2, some e) => (revertSnaps, w2, some e)
    | (revertSnaps, w2, none) =>
      match initQuota env volPath volID w2 with
      | (w3, some e) => (revertSnaps, w3, some e)
      | (w3, none) =>
        match setQuota env d volPath volID (vol.config.get "size") w3 with
        | (w4, some e) => (revertSnaps, w4, some e)
        | (w4, none) =>
          match rsyncRecv env path w4 with
          | (w5, some e) => (revertSnaps, w5, some e)
          | (w5, none) =>
            if volTargetArgs.Live then
              match rsyncRecv env path w5 with
              | (w6, some e) => (revertSnaps, w6, some e)
              | (w6, none) => (revertSnaps, w6, none)
            else (revertSnaps, w5, none)

/-- The function `CreateVolumeFromMigration`. -/
def CreateVolumeFromMigration (env : Env) (d : Driver) (vol : Volume)
    (volTargetArgs : VolumeTargetArgs) (preFiller : Option VolumeFiller) (w : World) :
    World × Option Err :=
  if vol.contentType ≠ .fs then (w, some .contentTypeNotSupported)
  else if volTargetArgs.FSType ≠ .rsync then (w, some .migrationTypeNotSupported)
  else
    match getVolID env vol.volType vol.name w with
    | (w1, .error e) => (w1, some e)
    | (w1, .ok volID) =>
      let volPath := vol.MountPath
      match vol.CreateMountPath env w1 with
      | (w2, some e) => (w2, some e)
      | (w2, none) =>
        match vol.MountTask env
            (migrationTask env d vol volTargetArgs preFiller volID volPath) [] w2 with
        | (revertSnaps, w3, some e) => (revertSnapshots d vol volPath revertSnaps w3, some e)
        | (_, w3, none) => (w3, none)

/-- The function `UpdateVolume`. -/
def UpdateVolume (env : Env) (d : Driver) (vol : Volume) (changedConfig : Config) (w : World) :
    World × Option Err :=
  if vol.contentType ≠ .fs then (w, some .contentTypeNotSupported)
  else if changedConfig.has "size" then
    match getVolID env vol.volType vol.name w with
    | (w1, .error e) => (w1, some e)
    | (w1, .ok volID) =>
      match setQuota env d vol.MountPath volID (changedConfig.get "size") w1 with
      | (w2, some e) => (w2, some e)
      | (w2, none) => (w2, none)
  else (w, none)

/-- The function `RestoreVolume`. -/
def RestoreVolume (env : Env) (d : Driver) (vol : Volume) (snapshotName : String) (w : World) :
    World × Option Err :=
  let srcPath := getVolumeMountPath d.name vol.volType (getSnapshotVolumeName vol.name snapshotName)
  if !pathExists w.fs srcPath then (w, some .snapshotNotFound)
  else
    let volPath := vol.MountPath
    match localCopy env srcPath volPath w with
    | (w1, some e) => (w1, some (.wrapped "Failed to rsync volume" e))
    | (w1, none) => (w1, none)

/-- The function `DeleteVolume`. -/
def DeleteVolume (env : Env) (d : Driver) (vol : Volume) (w : World) : World × Option Err :=
  match VolumeSnapshots d vol w with
  | (w1, .error e) => (w1, some e)
  | (w1, .ok snapshots) =>
    if snapshots.length > 0 then (w1, some .hasSnapshots)
    else
      let volPath := vol.MountPath
      if !pathExists w1.fs volPath then (w1, none)
      else
        match getVolID env vol.volType vol.name w1 with
        | (w2, .error e) => (w2, some e)
        | (w2, .ok volID) =>
          match deleteQuota env volPath volID w2 with
          | (w3, some e) => (w3, some e)
          | (w3, none) =>
            match removeAll volPath w3 with
            | (w4, some e) => (w4, some e)
            | (w4, none) =>
              match deleteParentSnapshotDirIfEmpty d.name vol.volType vol.name w4 with
              | (w5, some e) => (w5, some e)
              | (w5, none) => (w5, none)

/-- The function `SetVolumeQuota`. -/
def SetVolumeQuota (env : Env) (d : Driver) (vol : Volume) (size : String) (w : World) :
    World × Option Err :=
  let volPath := vol.MountPath
  match getVolID env vol.volType vol.name w with
  | (w1, .error e) => (w1, some e)
  | (w1, .ok volID) => setQuota env d volPath volID size w1

/-- The snapshot loop of `BackupVolume`. -/
def backupSnapshots (env : Env) (snapshotsPath : String) : List Volume → World → World × Option Err
  | [], w => (w, none)
  | snap :: rest, w =>
    let snapName := (instanceGetParentAndSnapshotName snap.name).2.1
    let target := joinPath snapshotsPath snapName
    match localCopy env snap.MountPath target w with
    | (w1, some e) => (w1, some (.wrapped "Failed to rsync" e))
    | (w1, none) => backupSnapshots env snapshotsPath rest w1

/-- The part of `BackupVolume` that handles the snapshots. -/
def backupHandleSnapshots (env : Env) (d : Driver) (vol : Volume) (targetPath : String)
    (w : World) : World × Option Err :=
  let snapshotsPath := joinPath targetPath "snapshots"
  match vol.Snapshots d w with
  | (w1, .error e) => (w1, some e)
  | (w1, .ok snapshots) =>
    match (if snapshots.length > 0 then mkdirAll env snapshotsPath w1 else (w1, none)) with
    | (w2, some e) => (w2, some e)
    | (w2, none) => backupSnapshots env snapshotsPath snapshots w2

/-- The function `BackupVolume`. -/
def BackupVolume (env : Env) (d : Driver) (vol : Volume) (targetPath : String)
    (optimized snapshots : Bool) (w : World) : World × Option Err :=
  let _ := optimized
  if vol.volType = .container then
    let parentVolDir := "container"
    match (if snapshots then backupHandleSnapshots env d vol targetPath w else (w, none)) with
    | (w1, some e) => (w1, some e)
    | (w1, none) =>
      let target := joinPath targetPath parentVolDir
      match localCopy env vol.MountPath target w1 with
      | (w2, some e) => (w2, some (.wrapped "Failed to rsync" e))
      | (w2, none) => (w2, none)
  else (w, some .notImplemented)

/-! ## Concrete data -/

/-- An environment in which every collaborator succeeds and quotas are
supported; every volume has id 1 and every non-empty size parses to 5000 bytes. -/
def exEnv : Env :=
  { getVolID := fun _ _ => .ok 1, supported := fun _ => .ok true,
    parseSize := fun _ => .ok 5000, fail := fun _ _ => none, incoming := fun _ => ["data"] }
/-- The pool `p` without a `volume.size` setting. -/
def exDriver : Driver := { name := "p", config := [] }

/-- A custom volume of the pool. -/
def exCustomVol : Volume :=
  { pool := "p", volType := .custom, contentType := .fs, name := "data", config := [] }

/-- The container `c1` of the pool. -/
def exVol : Volume :=
  { pool := "p", volType := .container, contentType := .fs, name := "c1", config := [] }
/-- The empty tree with an empty quota table. -/
def exWorld : World := { fs := [], proj := fun _ => 0, limit := fun _ => 0, trace := [] }
/-- A tree holding the container `c1`, assigned to project 10001 with a limit of
5000 bytes. -/
def exWorldLimited : World :=
  { fs := [(exVol.MountPath, ["rootfs"])], proj := fun p => if p = exVol.MountPath then 10001 else 0,
    limit := fun i => if i = 10001 then 5000 else 0, trace := [] }
/-- A tree in which the snapshot `c1/s0` exists while the mount path of `c1`
does not. -/
def exWorldSnapOnly : World :=
  { fs := [("/var/lib/lxd/storage-pools/p/containers-snapshots/c1/s0", ["rootfs"])],
    proj := fun _ => 0, limit := fun _ => 0, trace := [] }

/-- The paths handed to `os.RemoveAll`, in call order. -/
def removals (evs : List Event) : List String :=
  evs.filterMap (fun e => match e with
    | .removeAll p => some p
    | _ => none)

/-- The destination snapshot volume `copyVolume` and `CreateVolumeFromMigration`
build for a snapshot label. -/
def destSnapshot (d : Driver) (vol : Volume) (snapName : String) : Volume :=
  NewVolume d d.name vol.volType vol.contentType (getSnapshotVolumeName vol.name snapName)
    vol.config

/-- The label `copyVolume` takes from a source snapshot. -/
def snapshotLabel (srcSnapshot : Volume) : String :=
  (instanceGetParentAndSnapshotName srcSnapshot.name).2.1

/-- A source container with two snapshots. -/
def exSrcVol : Volume :=
  { pool := "p", volType := .container, contentType := .fs, name := "c0", config := [] }

/-- The snapshot volumes of the source container. -/
def exSrcSnapshots : List Volume :=
  [{ pool := "p", volType := .container, contentType := .fs, name := "c0/s1", config := [] },
   { pool := "p", volType := .container, contentType := .fs, name := "c0/s2", config := [] }]

/-- A tree holding the source container and its two snapshots. -/
def exSrcWorld : World :=
  { fs := [("/var/lib/lxd/storage-pools/p/containers/c0", ["rootfs"]),
           ("/var/lib/lxd/storage-pools/p/containers-snapshots/c0/s1", ["one"]),
           ("/var/lib/lxd/storage-pools/p/containers-snapshots/c0/s2", ["two"])],
    proj := fun _ => 0, limit := fun _ => 0, trace := [] }

/-- An environment in which the copy that registers the destination snapshot
`c1/s2` fails. -/
def exEnvFailSecond : Env :=
  { exEnv with
    fail := fun _ ev =>
      if ev = Event.localCopy "/var/lib/lxd/storage-pools/p/containers/c1"
          "/var/lib/lxd/storage-pools/p/containers-snapshots/c1/s2" then some "rsync failed"
      else none }

/-- The calls that count as actions of an operation: everything but the
metadata lookup, directory creation and the mounting around a task. -/
def isAction : Event → Bool
  | .getVolID _ _ => false
  | .mkdirAll _ => false
  | .mkdir _ => false
  | .mountReadOnly _ => false
  | .unmount _ => false
  | _ => true

/-- The actions among a list of calls, in call order. -/
def actions (evs : List Event) : List Event :=
  evs.filter isAction

/-- Whether a call is a tree receive. -/
def isRecv : Event → Bool
  | .recv _ => true
  | _ => false

/-- The action of the pre-filler, when one with a `Fill` function is supplied. -/
def fillerActions (filler : Option VolumeFiller) (path rootBlockPath : String) : List Event :=
  match filler with
  | some ⟨some _⟩ => [.fill path rootBlockPath]
  | _ => []

/-- For each snapshot label in list order: one receive, then the copy into the
snapshot path that completes the registration of the snapshot. -/
def snapshotActions (d : Driver) (vol : Volume) (path : String) : List String → List Event
  | [] => []
  | snapName :: rest =>
    .recv path ::
    .localCopy
      (getVolumeMountPath d.name vol.volType
        (instanceGetParentAndSnapshotName (getSnapshotVolumeName vol.name snapName)).1)
      (destSnapshot d vol snapName).MountPath ::
    snapshotActions d vol path rest

/-- The calls of `initQuota` followed by those of a successful `setQuota` that
parsed `sizeBytes`, for a non-zero volume id. -/
def quotaActions (env : Env) (d : Driver) (volPath : String) (volID : Int) (size : String)
    (sizeBytes : Int) : List Event :=
  (if env.quotaOn volPath then
    [.supported volPath, .setProject volPath (quotaProjectID volID)]
  else [.supported volPath]) ++
  (if env.quotaOn volPath then
    [.parseSize (quotaSize d size), .supported volPath,
      .setProjectQuota volPath (quotaProjectID volID) sizeBytes]
  else [.parseSize (quotaSize d size), .supported volPath])

/-- Target arguments of a live migration with the snapshots `a` and `b`. -/
def exTargetArgs : VolumeTargetArgs :=
  { Snapshots := ["a", "b"], FSType := .rsync, TrackProgress := false, Live := true }

/-- A filler that fails without touching the tree. -/
def exFailingFill : String → String → FsState → FsState × Option String :=
  fun _ _ fs => (fs, some "fill failed")

/-- An environment in which copying the source snapshot `c0/s1` into the
destination `c1` fails. -/
def exEnvFailSnapshotCopy : Env :=
  { exEnv with
    fail := fun _ ev =>
      if ev = Event.localCopy "/var/lib/lxd/storage-pools/p/containers-snapshots/c0/s1"
          "/var/lib/lxd/storage-pools/p/containers/c1" then some "rsync failed"
      else none }

/-- An environment in which mounting the source snapshot `c0/s1` fails. -/
def exEnvFailSnapshotMount : Env :=
  { exEnv with
    fail := fun _ ev =>
      if ev = Event.mountReadOnly "/var/lib/lxd/storage-pools/p/containers-snapshots/c0/s1"
      then some "mount failed"
      else none }

/-- The container `c1` with a `size` of its own. -/
def exSizedVol : Volume :=
  { pool := "p", volType := .container, contentType := .fs, name := "c1",
    config := [("size", "1GB")] }

/-- A block volume of the pool. -/
def exBlockVol : Volume :=
  { pool := "p", volType := .vm, contentType := .block, name := "vm1", config := [] }

/-- An environment without quota support in which no size parses. -/
def exEnvNoQuota : Env :=
  { exEnv with supported := fun _ => .ok false, parseSize := fun _ => .error "invalid size" }

/-- An environment in which the final copy of the live tree of `c0` into `c1` fails. -/
def exEnvFailFinalCopy : Env :=
  { exEnv with
    fail := fun _ ev =>
      if ev = Event.localCopy "/var/lib/lxd/storage-pools/p/containers/c0"
          "/var/lib/lxd/storage-pools/p/containers/c1" then some "rsync failed"
      else none }

/-- An environment in which every receive fails. -/
def exEnvFailRecv : Env :=
  { exEnv with
    fail := fun _ ev =>
      if ev = Event.recv "/var/lib/lxd/storage-pools/p/containers/c1/" then some "recv failed"
      else none }

/-- Target arguments of a migration without snapshots. -/
def exPlainTargetArgs : VolumeTargetArgs :=
  { Snapshots := [], FSType := .rsync, TrackProgress := false, Live := false }

/-- The snapshot `c0/s1` taken as the volume to snapshot and restore. -/
def exSnapAsVol : Volume :=
  NewVolume exDriver exDriver.name .container .fs "c0/s1" []

/-- The world after the snapshot `c0/x` of the container `c0` has been created. -/
def exAfterSnapshot : World :=
  (CreateVolumeSnapshot exEnv exDriver (destSnapshot exDriver exSrcVol "x") exSrcWorld).1

/-- The same world after the live tree of `c0` has been replaced: its listing
overwritten and a directory added below it. -/
def exLiveChanged : World :=
  { exAfterSnapshot with
    fs := fsSetTree exAfterSnapshot.fs exSrcVol.MountPath ["changed"] ++
      [("/var/lib/lxd/storage-pools/p/containers/c0/added", ["new"])] }

/-- The destinations of the tree copies among a list of calls, in call order. -/
def copiedInto (evs : List Event) : List String :=
  evs.filterMap (fun e => match e with
    | .localCopy _ dst => some dst
    | _ => none)

/-! ## Properties -/

theorem initQuota_of_ne (env : Env) (path : String) (volID : Int) (w : World) (h : volID ≠ 0) :
    initQuota env path volID w =
      if env.quotaOn path then
        ({ fs := w.fs, proj := Function.update w.proj path (quotaProjectID volID),
           limit := w.limit,
           trace := w.trace ++ [.supported path, .setProject path (quotaProjectID volID)] }, none)
      else (w.log (.supported path), none) := by
  simp only [initQuota, if_neg h, quotaSupported, quotaSetProject]
  cases hs : env.supported path with
  | error e => simp [Except.mapError, Env.quotaOn, hs, World.log]
  | ok b => cases b <;> simp [Except.mapError, World.log, Env.quotaOn, hs]

theorem deleteQuota_of_ne (env : Env) (path : String) (volID : Int) (w : World) (h : volID ≠ 0) :
    deleteQuota env path volID w =
      if env.quotaOn path then
        ({ fs := w.fs, proj := Function.update w.proj path 0,
           limit := Function.update w.limit (quotaProjectID volID) 0,
           trace := w.trace ++ [.supported path, .setProject path 0,
             .setProjectQuota path (quotaProjectID volID) 0] }, none)
      else (w.log (.supported path), none) := by
  simp only [deleteQuota, if_neg h, quotaSupported, quotaSetProject, quotaSetProjectQuota]
  cases hs : env.supported path with
  | error e => simp [Except.mapError, Env.quotaOn, hs, World.log]
  | ok b => cases b <;> simp [Except.mapError, World.log, Env.quotaOn, hs]

theorem setQuota_parse_error (env : Env) (d : Driver) (path size : String) (volID : Int)
    (w : World) (h : volID ≠ 0) (e : Err)
    (hp : (parseByteSizeString env (quotaSize d size) w).2 = .error e) :
    setQuota env d path volID size w = (w.log (.parseSize (quotaSize d size)), some e) := by
  simp only [setQuota, if_neg h, quotaSupported, quotaSetProjectQuota, parseByteSizeString,
    quotaSize] at hp ⊢
  simp [hp]

theorem setQuota_parse_ok (env : Env) (d : Driver) (path size : String) (volID : Int)
    (w : World) (h : volID ≠ 0) (n : Int)
    (hp : (parseByteSizeString env (quotaSize d size) w).2 = .ok n) :
    setQuota env d path volID size w =
      (if env.quotaOn path then
        { fs := w.fs, proj := w.proj,
          limit := Function.update w.limit (quotaProjectID volID) n,
          trace := w.trace ++ [.parseSize (quotaSize d size), .supported path,
            .setProjectQuota path (quotaProjectID volID) n] }
      else
        { fs := w.fs, proj := w.proj, limit := w.limit,
          trace := w.trace ++ [.parseSize (quotaSize d size), .supported path] }, none) := by
  simp only [setQuota, if_neg h, quotaSupported, quotaSetProjectQuota, parseByteSizeString,
    quotaSize] at hp ⊢
  simp only [hp]
  cases hs : env.supported path with
  | error e => simp [Except.mapError, World.log, Env.quotaOn, hs]
  | ok b => cases b <;> simp [Except.mapError, World.log, Env.quotaOn, hs]

theorem quotaSize_empty (d : Driver) :
    quotaSize d "" = d.config.get "volume.size" ∧
    quotaSize d (d.config.get "volume.size") = d.config.get "volume.size" := by
  simp [quotaSize]

theorem parseByteSizeString_ne_missing (env : Env) (sz : String) (w : World) :
    (parseByteSizeString env sz w).2 ≠ .error Err.missingVolumeID := by
  simp only [parseByteSizeString]
  split
  · simp
  · cases env.parseSize sz <;> simp [Except.mapError]

/-- Claim C7: `initQuota` and `setQuota` return the missing-volume-id error exactly
when `volID` is zero, for every path, size string and environment; and when
`volID` is zero both return with the world untouched, so before any
quota-support query or quota-mechanism call. -/
theorem initQuota_setQuota_missing_iff (env : Env) (d : Driver) (path size : String)
    (volID : Int) (w : World) :
    ((initQuota env path volID w).2 = some Err.missingVolumeID ↔ volID = 0) ∧
    ((setQuota env d path volID size w).2 = some Err.missingVolumeID ↔ volID = 0) ∧
    (volID = 0 → (initQuota env path volID w).1 = w ∧ (setQuota env d path volID size w).1 = w) := by
  refine ⟨?_, ?_, ?_⟩
  · constructor
    · intro h
      by_contra hne
      rw [initQuota_of_ne env path volID w hne] at h
      split at h <;> simp at h
    · intro h
      simp [initQuota, h]
  · constructor
    · intro h
      by_contra hne
      have hm := parseByteSizeString_ne_missing env (quotaSize d size) w
      cases hp : (parseByteSizeString env (quotaSize d size) w).2 with
      | error e =>
        rw [setQuota_parse_error env d path size volID w hne e hp] at h
        simp only [Option.some.injEq] at h
        rw [hp, h] at hm
        exact hm rfl
      | ok n =>
        rw [setQuota_parse_ok env d path size volID w hne n hp] at h
        simp at h
    · intro h
      simp [setQuota, h]
  · intro h
    simp [initQuota, setQuota, h]

/-- Claim C8, counterexample: with quotas supported, an empty size argument and no
pool `volume.size`, `setQuota` reports success but is not a no-op: the limit of
project 10001 goes from 5000 to 0. -/
theorem setQuota_both_empty_resets_limit :
    (setQuota exEnv exDriver exVol.MountPath 1 "" exWorldLimited).2 = none ∧
    exDriver.config.get "volume.size" = "" ∧
    exWorldLimited.limit 10001 = 5000 ∧
    (setQuota exEnv exDriver exVol.MountPath 1 "" exWorldLimited).1.limit 10001 = 0 := by
  decide

/-- Claim C8, amended: for a non-zero `volID`, `setQuota` with an empty size runs
exactly as with the pool's `volume.size`, which is the string it parses and whose
parsed value it applies; when the pool's `volume.size` is empty too it reports
success, leaves the tree and every path assignment unchanged, leaves the limits
unchanged without quota support and with quota support sets the limit of
`quotaProjectID volID` to 0 and no other. -/
theorem setQuota_empty_size_falls_back (env : Env) (d : Driver) (path : String) (volID : Int)
    (w : World) (h : volID ≠ 0) :
    setQuota env d path volID "" w = setQuota env d path volID (d.config.get "volume.size") w ∧
    (∃ evs, (setQuota env d path volID "" w).1.trace =
      w.trace ++ Event.parseSize (d.config.get "volume.size") :: evs) ∧
    (∀ n, (parseByteSizeString env (d.config.get "volume.size") w).2 = .ok n →
      env.quotaOn path = true →
      (setQuota env d path volID "" w).1.limit (quotaProjectID volID) = n) ∧
    (d.config.get "volume.size" = "" →
      (setQuota env d path volID "" w).2 = none ∧
      (setQuota env d path volID "" w).1.fs = w.fs ∧
      (setQuota env d path volID "" w).1.proj = w.proj ∧
      (setQuota env d path volID "" w).1.limit =
        if env.quotaOn path then Function.update w.limit (quotaProjectID volID) 0
        else w.limit) := by
  obtain ⟨hs1, hs2⟩ := quotaSize_empty d
  have hok : ∀ n, (parseByteSizeString env (d.config.get "volume.size") w).2 = .ok n →
      setQuota env d path volID "" w =
        (if env.quotaOn path then
          { fs := w.fs, proj := w.proj,
            limit := Function.update w.limit (quotaProjectID volID) n,
            trace := w.trace ++ [.parseSize (d.config.get "volume.size"), .supported path,
              .setProjectQuota path (quotaProjectID volID) n] }
        else
          { fs := w.fs, proj := w.proj, limit := w.limit,
            trace := w.trace ++ [.parseSize (d.config.get "volume.size"), .supported path] },
          none) := by
    intro n hn
    have := setQuota_parse_ok env d path "" volID w h n (by rw [hs1]; exact hn)
    rw [hs1] at this
    exact this
  refine ⟨?_, ?_, ?_, ?_⟩
  · cases hp : (parseByteSizeString env (d.config.get "volume.size") w).2 with
    | error e =>
      rw [setQuota_parse_error env d path "" volID w h e (by rw [hs1]; exact hp),
        setQuota_parse_error env d path _ volID w h e (by rw [hs2]; exact hp), hs1, hs2]
    | ok n =>
      rw [setQuota_parse_ok env d path "" volID w h n (by rw [hs1]; exact hp),
        setQuota_parse_ok env d path _ volID w h n (by rw [hs2]; exact hp), hs1, hs2]
  · cases hp : (parseByteSizeString env (d.config.get "volume.size") w).2 with
    | error e =>
      rw [setQuota_parse_error env d path "" volID w h e (by rw [hs1]; exact hp), hs1]
      exact ⟨[], rfl⟩
    | ok n =>
      rw [hok n hp]
      by_cases hq : env.quotaOn path = true
      · rw [if_pos hq]; exact ⟨_, rfl⟩
      · rw [if_neg hq]; exact ⟨_, rfl⟩
  · intro n hn hq
    rw [hok n hn, if_pos hq]
    simp
  · intro he
    have hp : (parseByteSizeString env (d.config.get "volume.size") w).2 = .ok 0 := by
      simp [parseByteSizeString, he]
    rw [hok 0 hp]
    by_cases hq : env.quotaOn path = true
    · simp [hq]
    · simp [hq]

theorem setQuota_empty_size_falls_back_witness :
    setQuota exEnv exDriver exVol.MountPath 1 "" exWorldLimited =
      setQuota exEnv exDriver exVol.MountPath 1 (exDriver.config.get "volume.size")
        exWorldLimited ∧
    (setQuota exEnv exDriver exVol.MountPath 1 "" exWorldLimited).2 = none :=
  ⟨(setQuota_empty_size_falls_back exEnv exDriver exVol.MountPath 1 exWorldLimited
    (by decide)).1,
   ((setQuota_empty_size_falls_back exEnv exDriver exVol.MountPath 1 exWorldLimited
    (by decide)).2.2.2 rfl).1⟩

theorem initQuota_setQuota_missing_iff_witness :
    (initQuota exEnv exVol.MountPath 0 exWorld).2 = some Err.missingVolumeID ∧
    (initQuota exEnv exVol.MountPath 0 exWorld).1 = exWorld ∧
    (setQuota exEnv exDriver exVol.MountPath 0 "1GB" exWorld).1 = exWorld :=
  ⟨(initQuota_setQuota_missing_iff exEnv exDriver exVol.MountPath "1GB" 0 exWorld).1.mpr rfl,
   (initQuota_setQuota_missing_iff exEnv exDriver exVol.MountPath "1GB" 0 exWorld).2.2 rfl⟩

/-- Claim C9: for a volume that is not a container, `BackupVolume` returns the
not-implemented error with the world untouched, whatever the target path and the
snapshots flag: no directory is created, no listing made, no tree copied. -/
theorem backupVolume_not_container (env : Env) (d : Driver) (vol : Volume) (targetPath : String)
    (optimized snapshots : Bool) (w : World) (h : vol.volType ≠ .container) :
    BackupVolume env d vol targetPath optimized snapshots w = (w, some Err.notImplemented) := by
  simp [BackupVolume, h]

/-- Claim C4: when the snapshot listing returns at least one snapshot,
`DeleteVolume` fails with the has-snapshots error; the tree and the quota table
are unchanged and the only call made is the listing itself (no volume-id lookup,
no quota call, no removal). -/
theorem deleteVolume_has_snapshots (env : Env) (d : Driver) (vol : Volume) (w : World)
    (snaps : List String) (h : (VolumeSnapshots d vol w).2 = .ok snaps) (hne : snaps ≠ []) :
    (DeleteVolume env d vol w).2 = some Err.hasSnapshots ∧
    (DeleteVolume env d vol w).1.fs = w.fs ∧
    (DeleteVolume env d vol w).1.proj = w.proj ∧
    (DeleteVolume env d vol w).1.limit = w.limit ∧
    (DeleteVolume env d vol w).1.trace =
      w.trace ++ [Event.readDir (getVolumeSnapshotDir d.name vol.volType vol.name)] := by
  simp only [VolumeSnapshots, vfsVolumeSnapshots] at h
  have h' : fsChildren w.fs (getVolumeSnapshotDir d.name vol.volType vol.name) = snaps := by
    simpa using h
  have hlen : (fsChildren w.fs (getVolumeSnapshotDir d.name vol.volType vol.name)).length > 0 := by
    rw [h']; exact List.length_pos.mpr hne
  simp [DeleteVolume, VolumeSnapshots, vfsVolumeSnapshots, hlen, World.log]

theorem backupVolume_not_container_witness :
    BackupVolume exEnv exDriver exCustomVol "/backup" false true exWorld =
      (exWorld, some Err.notImplemented) :=
  backupVolume_not_container exEnv exDriver exCustomVol "/backup" false true exWorld
    (by decide)

theorem deleteVolume_has_snapshots_witness :
    (DeleteVolume exEnv exDriver exVol exWorldSnapOnly).2 = some Err.hasSnapshots ∧
    (DeleteVolume exEnv exDriver exVol exWorldSnapOnly).1.fs = exWorldSnapOnly.fs :=
  have h := deleteVolume_has_snapshots exEnv exDriver exVol exWorldSnapOnly ["s0"] rfl
    (by decide)
  ⟨h.1, h.2.1⟩

theorem fsChildren_sublist {fs fs' : FsState} (h : fs'.Sublist fs) (p : String) :
    (fsChildren fs' p).Sublist (fsChildren fs p) :=
  List.Sublist.filterMap _ h

theorem pathExists_sublist {fs fs' : FsState} (h : fs'.Sublist fs) (p : String)
    (hp : pathExists fs p = false) : pathExists fs' p = false := by
  simp only [pathExists, List.any_eq_false] at hp ⊢
  intro e he
  exact hp e (h.subset he)

theorem fsRemoveAll_sublist (fs : FsState) (p : String) : (fsRemoveAll fs p).Sublist fs :=
  List.filter_sublist _

theorem fsRemove_sublist (fs : FsState) (p : String) : (fsRemove fs p).Sublist fs :=
  List.filter_sublist _

theorem pathExists_fsRemoveAll (fs : FsState) (p : String) :
    pathExists (fsRemoveAll fs p) p = false := by
  simp only [pathExists, fsRemoveAll, List.any_eq_false]
  intro e he
  have := (List.mem_filter.mp he).2
  simpa using this

theorem deleteParentSnapshotDirIfEmpty_spec (poolName : String) (volType : VolumeType)
    (volName : String) (w : World) :
    (deleteParentSnapshotDirIfEmpty poolName volType volName w).2 = none ∧
    (deleteParentSnapshotDirIfEmpty poolName volType volName w).1.fs.Sublist w.fs ∧
    (deleteParentSnapshotDirIfEmpty poolName volType volName w).1.proj = w.proj ∧
    (deleteParentSnapshotDirIfEmpty poolName volType volName w).1.limit = w.limit := by
  unfold deleteParentSnapshotDirIfEmpty
  simp only [remove]
  split
  · split
    · exact ⟨rfl, fsRemove_sublist _ _, rfl, rfl⟩
    · exact ⟨rfl, List.Sublist.refl _, rfl, rfl⟩
  · exact ⟨rfl, List.Sublist.refl _, rfl, rfl⟩

/-- What a `DeleteVolume` that reports success has done to the tree. -/
theorem deleteVolume_ok (env : Env) (d : Driver) (vol : Volume) (w : World)
    (h : (DeleteVolume env d vol w).2 = none) :
    fsChildren w.fs (getVolumeSnapshotDir d.name vol.volType vol.name) = [] ∧
    (DeleteVolume env d vol w).1.fs.Sublist w.fs ∧
    pathExists (DeleteVolume env d vol w).1.fs vol.MountPath = false := by
  unfold DeleteVolume at h ⊢
  simp only [VolumeSnapshots, vfsVolumeSnapshots] at h ⊢
  by_cases hl : (fsChildren w.fs (getVolumeSnapshotDir d.name vol.volType vol.name)).length > 0
  · simp [hl] at h
  · have hnil : fsChildren w.fs (getVolumeSnapshotDir d.name vol.volType vol.name) = [] := by
      cases hc : fsChildren w.fs (getVolumeSnapshotDir d.name vol.volType vol.name) with
      | nil => rfl
      | cons a l => rw [hc] at hl; simp at hl
    refine ⟨hnil, ?_⟩
    simp only [hl, if_false] at h ⊢
    by_cases hex : pathExists (w.log (Event.readDir
        (getVolumeSnapshotDir d.name vol.volType vol.name))).fs vol.MountPath = true
    · simp only [hex, Bool.not_true, Bool.false_eq_true, if_false] at h ⊢
      simp only [getVolID] at h ⊢
      cases hv : env.getVolID vol.volType vol.name with
      | error e => simp [hv, Except.mapError] at h
      | ok volID =>
        simp only [hv, Except.mapError] at h ⊢
        by_cases hz : volID = 0
        · simp [hz, deleteQuota] at h
        · rw [deleteQuota_of_ne _ _ _ _ hz] at h ⊢
          have hd := fun w' => deleteParentSnapshotDirIfEmpty_spec d.name vol.volType vol.name w'
          have hdp : ∀ w', deleteParentSnapshotDirIfEmpty d.name vol.volType vol.name w' =
              ((deleteParentSnapshotDirIfEmpty d.name vol.volType vol.name w').1, none) :=
            fun w' => Prod.ext rfl (hd w').1
          by_cases hq : env.quotaOn vol.MountPath = true
          · simp only [hq, if_true, removeAll]
            rw [hdp]
            refine ⟨(hd _).2.1.trans (fsRemoveAll_sublist _ _), ?_⟩
            exact pathExists_sublist (hd _).2.1 _ (pathExists_fsRemoveAll _ _)
          · rw [if_neg hq]
            simp only [removeAll]
            rw [hdp]
            refine ⟨(hd _).2.1.trans (fsRemoveAll_sublist _ _), ?_⟩
            exact pathExists_sublist (hd _).2.1 _ (pathExists_fsRemoveAll _ _)
    · have hex' : pathExists w.fs vol.MountPath = false := by
        simpa [World.log] using hex
      simp [hex', World.log, List.Sublist.refl]

/-- Claim C5, counterexample: the mount path of `c1` does not exist, yet
`DeleteVolume` fails, because a snapshot of `c1` is listed. -/
theorem deleteVolume_absent_path_with_snapshot_fails :
    pathExists exWorldSnapOnly.fs exVol.MountPath = false ∧
    (DeleteVolume exEnv exDriver exVol exWorldSnapOnly).2 = some Err.hasSnapshots := by
  decide

/-- Claim C5, amended: for a volume whose mount path does not exist and whose
snapshot listing is empty, `DeleteVolume` succeeds and only makes the listing
call (no mutation, no quota call, no volume-id lookup); and after any successful
`DeleteVolume` a second call succeeds and again only makes the listing call. -/
theorem deleteVolume_missing_path (env : Env) (d : Driver) (vol : Volume) :
    (∀ w : World, pathExists w.fs vol.MountPath = false →
      (VolumeSnapshots d vol w).2 = .ok [] →
      DeleteVolume env d vol w =
        (w.log (Event.readDir (getVolumeSnapshotDir d.name vol.volType vol.name)), none)) ∧
    (∀ w : World, (DeleteVolume env d vol w).2 = none →
      DeleteVolume env d vol (DeleteVolume env d vol w).1 =
        ((DeleteVolume env d vol w).1.log
          (Event.readDir (getVolumeSnapshotDir d.name vol.volType vol.name)), none)) := by
  have key : ∀ w : World, pathExists w.fs vol.MountPath = false →
      fsChildren w.fs (getVolumeSnapshotDir d.name vol.volType vol.name) = [] →
      DeleteVolume env d vol w =
        (w.log (Event.readDir (getVolumeSnapshotDir d.name vol.volType vol.name)), none) := by
    intro w hp hc
    simp [DeleteVolume, VolumeSnapshots, vfsVolumeSnapshots, hc, World.log, hp]
  constructor
  · intro w hp hs
    apply key w hp
    simpa [VolumeSnapshots, vfsVolumeSnapshots] using hs
  · intro w h
    obtain ⟨hc, hsub, hp⟩ := deleteVolume_ok env d vol w h
    apply key _ hp
    exact List.sublist_nil.mp (hc ▸ fsChildren_sublist hsub _)

theorem deleteVolume_missing_path_witness :
    DeleteVolume exEnv exDriver exVol exWorld =
      (exWorld.log (Event.readDir (getVolumeSnapshotDir exDriver.name exVol.volType exVol.name)),
        none) ∧
    DeleteVolume exEnv exDriver exVol (DeleteVolume exEnv exDriver exVol exWorldLimited).1 =
      ((DeleteVolume exEnv exDriver exVol exWorldLimited).1.log
        (Event.readDir (getVolumeSnapshotDir exDriver.name exVol.volType exVol.name)), none) :=
  ⟨(deleteVolume_missing_path exEnv exDriver exVol).1 exWorld (by decide) rfl,
   (deleteVolume_missing_path exEnv exDriver exVol).2 exWorldLimited (by decide)⟩

theorem setupInitialQuota_ok (env : Env) (d : Driver) (vol : Volume) (w1 w2 : World)
    (rf : Option (World → World)) (h : setupInitialQuota env d vol w1 = (w2, .ok rf)) :
    ∃ volID, env.getVolID vol.volType vol.name = .ok volID ∧ volID ≠ 0 ∧
      rf = some (fun w => (deleteQuota env vol.MountPath volID w).1) ∧
      w2.fs = w1.fs ∧
      (env.quotaOn vol.MountPath = false → w2.proj = w1.proj ∧ w2.limit = w1.limit) := by
  unfold setupInitialQuota at h
  simp only [getVolID] at h
  cases hv : env.getVolID vol.volType vol.name with
  | error e => simp [hv, Except.mapError] at h
  | ok volID =>
    simp only [hv, Except.mapError] at h
    by_cases hz : volID = 0
    · simp [hz, initQuota] at h
    · refine ⟨volID, rfl, hz, ?_⟩
      rw [initQuota_of_ne _ _ _ _ hz] at h
      generalize hsz : (if vol.config.get "size" ≠ "" then vol.config.get "size"
        else d.config.get "volume.size") = sz at h
      generalize hwi : (if env.quotaOn vol.MountPath = true then
          (({ fs := (w1.log (Event.getVolID vol.volType vol.name)).fs,
              proj := Function.update (w1.log (Event.getVolID vol.volType vol.name)).proj
                vol.MountPath (quotaProjectID volID),
              limit := (w1.log (Event.getVolID vol.volType vol.name)).limit,
              trace := (w1.log (Event.getVolID vol.volType vol.name)).trace ++
                [Event.supported vol.MountPath,
                  Event.setProject vol.MountPath (quotaProjectID volID)] } : World),
            (none : Option Err))
        else ((w1.log (Event.getVolID vol.volType vol.name)).log
          (Event.supported vol.MountPath), none)) = ri at h
      have hri : ri.2 = none ∧ ri.1.fs = w1.fs ∧
          (env.quotaOn vol.MountPath = false → ri.1.proj = w1.proj ∧ ri.1.limit = w1.limit) := by
        subst hwi
        by_cases hq : env.quotaOn vol.MountPath = true
        · simp [hq, World.log]
        · simp [hq, World.log]
      obtain ⟨wi, ei⟩ := ri
      obtain ⟨hei, hfi, hpi⟩ := hri
      simp only at hei hfi hpi
      subst hei
      simp only at h
      cases hp : (parseByteSizeString env (quotaSize d sz) wi).2 with
      | error e =>
        rw [setQuota_parse_error env d _ sz volID wi hz e hp] at h
        simp at h
      | ok n =>
        rw [setQuota_parse_ok env d _ sz volID wi hz n hp] at h
        simp only [Prod.mk.injEq, Except.ok.injEq] at h
        obtain ⟨h1, h2⟩ := h
        subst h1
        refine ⟨h2.symm, ?_, ?_⟩
        · by_cases hq : env.quotaOn vol.MountPath = true
          · simp [hq, hfi]
          · simp [hq, hfi]
        · intro hq
          simp [hq, hpi hq]

/-- Claim C1: for a filesystem volume whose mount path was created and whose
initial quota was set up, a failing filler makes `CreateVolume` return the
filler's error; afterwards the mount path does not exist; with quota support the
path's project assignment and the limit of `quotaProjectID volID` are cleared, and
the calls after the filler are the quota removal followed by the removal of the
directory; without quota support no assignment was made and none remains. -/
theorem createVolume_failing_filler_leaves_no_trace (env : Env) (d : Driver) (vol : Volume)
    (fill : String → String → FsState → FsState × Option String) (w w1 w2 : World)
    (rf : Option (World → World)) (msg : String)
    (hfs : vol.contentType = .fs)
    (hmk : vol.CreateMountPath env w = (w1, none))
    (hq : setupInitialQuota env d vol w1 = (w2, .ok rf))
    (hfill : (fill vol.MountPath "" w2.fs).2 = some msg) :
    (CreateVolume env d vol (some ⟨some fill⟩) w).2 = some (Err.external msg) ∧
    pathExists (CreateVolume env d vol (some ⟨some fill⟩) w).1.fs vol.MountPath = false ∧
    ∃ volID, env.getVolID vol.volType vol.name = .ok volID ∧ volID ≠ 0 ∧
      if env.quotaOn vol.MountPath then
        (CreateVolume env d vol (some ⟨some fill⟩) w).1.proj vol.MountPath = 0 ∧
        (CreateVolume env d vol (some ⟨some fill⟩) w).1.limit (quotaProjectID volID) = 0 ∧
        (CreateVolume env d vol (some ⟨some fill⟩) w).1.trace =
          w2.trace ++ [Event.fill vol.MountPath "", Event.supported vol.MountPath,
            Event.setProject vol.MountPath 0,
            Event.setProjectQuota vol.MountPath (quotaProjectID volID) 0,
            Event.removeAll vol.MountPath]
      else
        (CreateVolume env d vol (some ⟨some fill⟩) w).1.proj = w.proj ∧
        (CreateVolume env d vol (some ⟨some fill⟩) w).1.limit = w.limit ∧
        (CreateVolume env d vol (some ⟨some fill⟩) w).1.trace =
          w2.trace ++ [Event.fill vol.MountPath "", Event.supported vol.MountPath,
            Event.removeAll vol.MountPath] := by
  obtain ⟨volID, hv, hz, hrf, hfs2, hoff⟩ := setupInitialQuota_ok env d vol w1 w2 rf hq
  have hblock : ¬ vol.contentType = ContentType.block := by rw [hfs]; decide
  have hrun : CreateVolume env d vol (some ⟨some fill⟩) w =
      ((removeAll vol.MountPath (deleteQuota env vol.MountPath volID
        { w2.log (Event.fill vol.MountPath "") with
          fs := (fill vol.MountPath "" w2.fs).1 }).1).1, some (Err.external msg)) := by
    unfold CreateVolume
    simp only [hmk, if_neg hblock, hq, createVolumeFill, runFiller, hfill, Option.map_some', hrf]
  have hw1 : w1.proj = w.proj ∧ w1.limit = w.limit := by
    unfold Volume.CreateMountPath mkdirAll at hmk
    split at hmk
    · simp at hmk
    · simp only [Prod.mk.injEq, and_true] at hmk
      subst hmk
      exact ⟨rfl, rfl⟩
  rw [hrun, deleteQuota_of_ne _ _ _ _ hz]
  refine ⟨rfl, ?_, volID, hv, hz, ?_⟩
  · simp only [removeAll]
    exact pathExists_fsRemoveAll _ _
  · by_cases hon : env.quotaOn vol.MountPath = true
    · simp [hon, removeAll, World.log]
    · have hoff' := hoff (by simpa using hon)
      simp [hon, removeAll, World.log, hoff'.1, hoff'.2, hw1.1, hw1.2]

theorem deleteParentSnapshotDirIfEmpty_result {poolName : String} {volType : VolumeType}
    {volName : String} {w w' : World} {r : Option Err}
    (h : deleteParentSnapshotDirIfEmpty poolName volType volName w = (w', r)) :
    r = none ∧ w'.fs.Sublist w.fs ∧ w'.proj = w.proj ∧ w'.limit = w.limit ∧
    ∃ evs, w'.trace = w.trace ++ evs ∧ removals evs = [] := by
  unfold deleteParentSnapshotDirIfEmpty at h
  simp only [remove] at h
  split at h
  · split at h
    · simp only [Prod.mk.injEq] at h
      obtain ⟨h1, h2⟩ := h
      subst h1 h2
      exact ⟨rfl, fsRemove_sublist _ _, rfl, rfl, [Event.remove _], rfl, rfl⟩
    · simp only [Prod.mk.injEq] at h
      obtain ⟨h1, h2⟩ := h
      subst h1 h2
      exact ⟨rfl, List.Sublist.refl _, rfl, rfl, [], by simp, rfl⟩
  · simp only [Prod.mk.injEq] at h
    obtain ⟨h1, h2⟩ := h
    subst h1 h2
    exact ⟨rfl, List.Sublist.refl _, rfl, rfl, [], by simp, rfl⟩

theorem deleteVolumeSnapshot_result {d : Driver} {snapVol : Volume} {w w' : World}
    {r : Option Err} (h : DeleteVolumeSnapshot d snapVol w = (w', r)) :
    w'.fs.Sublist w.fs ∧ pathExists w'.fs snapVol.MountPath = false ∧
    w'.proj = w.proj ∧ w'.limit = w.limit ∧
    ∃ evs, w'.trace = w.trace ++ evs ∧ removals evs = [snapVol.MountPath] := by
  unfold DeleteVolumeSnapshot at h
  simp only [removeAll] at h
  split at h
  · rename_i w2 e heq
    have := (deleteParentSnapshotDirIfEmpty_result heq).1
    simp at this
  · rename_i w2 heq
    obtain ⟨-, hs, hp, hl, evs, ht, hr⟩ := deleteParentSnapshotDirIfEmpty_result heq
    simp only [Prod.mk.injEq] at h
    obtain ⟨h1, h2⟩ := h
    subst h1 h2
    refine ⟨hs.trans (fsRemoveAll_sublist _ _),
      pathExists_sublist hs _ (pathExists_fsRemoveAll _ _), hp, hl,
      Event.removeAll snapVol.MountPath :: evs, ?_, ?_⟩
    · rw [ht]; simp [World.log]
    · simp only [removals, List.filterMap_cons] at hr ⊢
      rw [hr]

/-- The cleanup loop of `revertSnapshots`: every listed snapshot is gone afterwards
and the removals happen in list order. -/
theorem revertLoop_result (d : Driver) (vol : Volume) (rs : List String) (w : World) :
    (rs.foldl (fun w snapName => (DeleteVolumeSnapshot d (destSnapshot d vol snapName) w).1)
      w).fs.Sublist w.fs ∧
    (rs.foldl (fun w snapName => (DeleteVolumeSnapshot d (destSnapshot d vol snapName) w).1)
      w).proj = w.proj ∧
    (rs.foldl (fun w snapName => (DeleteVolumeSnapshot d (destSnapshot d vol snapName) w).1)
      w).limit = w.limit ∧
    (∀ s ∈ rs, pathExists (rs.foldl (fun w snapName =>
      (DeleteVolumeSnapshot d (destSnapshot d vol snapName) w).1) w).fs
        (destSnapshot d vol s).MountPath = false) ∧
    ∃ evs, (rs.foldl (fun w snapName =>
        (DeleteVolumeSnapshot d (destSnapshot d vol snapName) w).1) w).trace = w.trace ++ evs ∧
      removals evs = rs.map (fun s => (destSnapshot d vol s).MountPath) := by
  induction rs generalizing w with
  | nil => exact ⟨List.Sublist.refl _, rfl, rfl, by simp, [], by simp, rfl⟩
  | cons a rs ih =>
    simp only [List.foldl_cons]
    have hx : DeleteVolumeSnapshot d (destSnapshot d vol a) w =
        ((DeleteVolumeSnapshot d (destSnapshot d vol a) w).1,
          (DeleteVolumeSnapshot d (destSnapshot d vol a) w).2) := rfl
    obtain ⟨hs, hp, hpr, hli, evs, ht, hr⟩ := deleteVolumeSnapshot_result hx
    obtain ⟨ihs, ihpr, ihli, ihp, evs2, iht, ihr⟩ :=
      ih (DeleteVolumeSnapshot d (destSnapshot d vol a) w).1
    refine ⟨ihs.trans hs, ihpr.trans hpr, ihli.trans hli, ?_, evs ++ evs2, ?_, ?_⟩
    · intro s hsmem
      rcases List.mem_cons.mp hsmem with rfl | hin
      · exact pathExists_sublist ihs _ hp
      · exact ihp s hin
    · rw [iht, ht, List.append_assoc]
    · simp only [removals, List.filterMap_append] at hr ihr ⊢
      rw [hr, ihr]
      rfl

theorem revertSnapshots_result (d : Driver) (vol : Volume) (rs : List String) (w : World) :
    (revertSnapshots d vol vol.MountPath rs w).fs.Sublist w.fs ∧
    (∀ s ∈ rs, pathExists (revertSnapshots d vol vol.MountPath rs w).fs
      (destSnapshot d vol s).MountPath = false) ∧
    pathExists (revertSnapshots d vol vol.MountPath rs w).fs vol.MountPath = false ∧
    (revertSnapshots d vol vol.MountPath rs w).proj = w.proj ∧
    (revertSnapshots d vol vol.MountPath rs w).limit = w.limit ∧
    ∃ evs, (revertSnapshots d vol vol.MountPath rs w).trace = w.trace ++ evs ∧
      removals evs = rs.map (fun s => (destSnapshot d vol s).MountPath) ++ [vol.MountPath] := by
  obtain ⟨hs, hpr, hli, hp, evs, ht, hr⟩ := revertLoop_result d vol rs w
  unfold revertSnapshots
  simp only [removeAll]
  refine ⟨(fsRemoveAll_sublist _ _).trans hs, ?_, pathExists_fsRemoveAll _ _, ?_, ?_,
    evs ++ [Event.removeAll vol.MountPath], ?_, ?_⟩
  · intro s hsmem
    exact pathExists_sublist (fsRemoveAll_sublist _ _) _ (hp s hsmem)
  · exact hpr
  · exact hli
  · simp only [World.log]
    rw [← List.append_assoc]
    congr 1
  · simp only [removals, List.filterMap_append] at hr ⊢
    rw [hr]
    rfl

/-- How `MountTask` relates to a run of its task. -/
theorem mountTask_result {σ : Type} {env : Env} {v : Volume}
    {task : String → σ → World → σ × World × Option Err} {s s' : σ} {w w' : World}
    {r : Option Err} (h : v.MountTask env task s w = (s', w', r)) :
    (v.IsSnapshot = false ∧ task v.MountPath s w = (s', w', r)) ∨
    (v.IsSnapshot = true ∧ s' = s ∧ w' = w.log (Event.mountReadOnly v.MountPath) ∧
      ∃ e, r = some (Err.external e) ∧
        env.fail w.trace (Event.mountReadOnly v.MountPath) = some e) ∨
    (v.IsSnapshot = true ∧
      env.fail w.trace (Event.mountReadOnly v.MountPath) = none ∧
      ∃ wt, task v.MountPath s (w.log (Event.mountReadOnly v.MountPath)) = (s', wt, r) ∧
        w' = wt.log (Event.unmount v.MountPath)) := by
  unfold Volume.MountTask at h
  by_cases hsn : v.IsSnapshot = true
  · rw [if_pos hsn] at h
    simp only [MountVolumeSnapshot, mountReadOnly] at h
    cases hf : env.fail w.trace (Event.mountReadOnly v.MountPath) with
    | some e =>
      simp only [hf, Prod.mk.injEq] at h
      obtain ⟨h1, h2, h3⟩ := h
      exact Or.inr (Or.inl ⟨hsn, h1.symm, h2.symm, e, h3.symm, rfl⟩)
    | none =>
      simp only [hf] at h
      refine Or.inr (Or.inr ⟨hsn, rfl, ?_⟩)
      rcases ht : task v.MountPath s (w.log (Event.mountReadOnly v.MountPath)) with ⟨s2, w2, r2⟩
      rw [ht] at h
      simp only [if_true, UnmountVolumeSnapshot, forceUnmount, Prod.mk.injEq] at h
      obtain ⟨h1, h2, h3⟩ := h
      subst h1 h2 h3
      exact ⟨w2, rfl, rfl⟩
  · rw [if_neg hsn] at h
    simp only [MountVolume] at h
    rcases ht : task v.MountPath s w with ⟨s2, w2, r2⟩
    rw [ht] at h
    simp only [Bool.false_eq_true, if_false, Prod.mk.injEq] at h
    obtain ⟨h1, h2, h3⟩ := h
    subst h1 h2 h3
    exact Or.inl ⟨by simpa using hsn, rfl⟩

/-- The state a `MountTask` hands back is the initial one or the task's. -/
theorem mountTask_state {σ : Type} {env : Env} {v : Volume}
    {task : String → σ → World → σ × World × Option Err} {s s' : σ} {w w' : World}
    {r : Option Err} (h : v.MountTask env task s w = (s', w', r)) :
    s' = s ∨ ∃ wm wt, task v.MountPath s wm = (s', wt, r) := by
  rcases mountTask_result h with ⟨-, ht⟩ | ⟨-, hs, -⟩ | ⟨-, -, wt, ht, -⟩
  · exact Or.inr ⟨_, _, ht⟩
  · exact Or.inl hs
  · exact Or.inr ⟨_, _, ht⟩

theorem copyVolumeSnapshots_labels (env : Env) (d : Driver) (vol : Volume) (mountPath : String)
    (snaps : List Volume) :
    ∀ (init : List String) (w : World) (rs : List String) (w' : World) (r : Option Err),
      copyVolumeSnapshots env d vol mountPath snaps init w = (rs, w', r) →
      ∃ k, rs = init ++ (snaps.take k).map snapshotLabel := by
  induction snaps with
  | nil =>
    intro init w rs w' r h
    simp only [copyVolumeSnapshots, Prod.mk.injEq] at h
    exact ⟨0, by simp [h.1]⟩
  | cons a snaps ih =>
    intro init w rs w' r h
    simp only [copyVolumeSnapshots] at h
    split at h
    · rename_i w2 e heq
      simp only [Prod.mk.injEq] at h
      exact ⟨0, by simp [h.1]⟩
    · rename_i w2 heq
      obtain ⟨k, hk⟩ := ih _ _ _ _ _ h
      exact ⟨k + 1, by simp [hk, snapshotLabel]⟩

theorem copyVolumeTask_labels {env : Env} {d : Driver} {vol srcVol : Volume}
    {srcSnapshots : List Volume} {volID : Int} {volPath mountPath : String} {w w' : World}
    {rs : List String} {r : Option Err}
    (h : copyVolumeTask env d vol srcVol srcSnapshots volID volPath mountPath [] w = (rs, w', r)) :
    ∃ k, rs = (srcSnapshots.take k).map snapshotLabel := by
  unfold copyVolumeTask at h
  have key : ∀ x : List String × World × Option Err,
      (if srcSnapshots.length > 0 ∧ (!srcVol.IsSnapshot) = true then
        copyVolumeSnapshots env d vol mountPath srcSnapshots [] w else ([], w, none)) = x →
      ∃ k, x.1 = (srcSnapshots.take k).map snapshotLabel := by
    intro x hx
    split at hx
    · obtain ⟨k, hk⟩ := copyVolumeSnapshots_labels env d vol mountPath srcSnapshots [] w
        x.1 x.2.1 x.2.2 hx
      exact ⟨k, by simpa using hk⟩
    · exact ⟨0, by simp [← hx]⟩
  split at h
  · rename_i rs1 w1 e heq
    obtain ⟨k, hk⟩ := key _ heq
    simp only [Prod.mk.injEq] at h
    exact ⟨k, by rw [← h.1]; exact hk⟩
  · rename_i rs1 w1 heq
    obtain ⟨k, hk⟩ := key _ heq
    have hrs : rs = rs1 := by
      split at h
      · simp only [Prod.mk.injEq] at h; exact h.1.symm
      · split at h
        · simp only [Prod.mk.injEq] at h; exact h.1.symm
        · split at h
          simp only [Prod.mk.injEq] at h; exact h.1.symm
    exact ⟨k, by rw [hrs]; exact hk⟩

theorem triple_eq {α β γ : Type} {x : α × β × γ} {a : α} {c : γ} (h1 : x.1 = a)
    (h3 : x.2.2 = c) : x = (a, x.2.1, c) := by
  obtain ⟨x1, x2, x3⟩ := x
  simp only at h1 h3
  rw [h1, h3]

theorem pair_eq {α β : Type} {x : α × β} {b : β} (h : x.2 = b) : x = (x.1, b) := by
  obtain ⟨x1, x2⟩ := x
  simp only at h
  rw [h]

theorem actions_append (a b : List Event) : actions (a ++ b) = actions a ++ actions b :=
  List.filter_append a b

theorem runFiller_result {filler : Option VolumeFiller} {path rootBlockPath : String}
    {w w' : World} (h : runFiller filler path rootBlockPath w = (w', none)) :
    w'.proj = w.proj ∧ w'.limit = w.limit ∧
    w'.trace = w.trace ++ fillerActions filler path rootBlockPath := by
  cases filler with
  | none =>
    simp only [runFiller, Prod.mk.injEq, and_true] at h
    subst h
    simp [fillerActions]
  | some f =>
    obtain ⟨ff⟩ := f
    cases ff with
    | none =>
      simp only [runFiller, Prod.mk.injEq, and_true] at h
      subst h
      simp [fillerActions]
    | some fill =>
      simp only [runFiller, Prod.mk.injEq] at h
      obtain ⟨h1, -⟩ := h
      subst h1
      simp [fillerActions, World.log]

theorem rsyncRecv_result {env : Env} {path : String} {w w' : World}
    (h : rsyncRecv env path w = (w', none)) :
    w'.proj = w.proj ∧ w'.limit = w.limit ∧ w'.trace = w.trace ++ [Event.recv path] := by
  unfold rsyncRecv at h
  split at h
  · simp at h
  · simp only [Prod.mk.injEq, and_true] at h
    subst h
    simp [World.log]

theorem mkdirAll_result {env : Env} {p : String} {w w' : World} {r : Option Err}
    (h : mkdirAll env p w = (w', r)) :
    w'.proj = w.proj ∧ w'.limit = w.limit ∧ w'.trace = w.trace ++ [Event.mkdirAll p] := by
  unfold mkdirAll at h
  split at h <;>
  · simp only [Prod.mk.injEq] at h
    obtain ⟨h1, -⟩ := h
    subst h1
    simp [World.log]

theorem mkdir_result {env : Env} {p : String} {w w' : World} {r : Option Err}
    (h : mkdir env p w = (w', r)) :
    w'.proj = w.proj ∧ w'.limit = w.limit ∧ w'.trace = w.trace ++ [Event.mkdir p] := by
  unfold mkdir at h
  split at h <;>
  · simp only [Prod.mk.injEq] at h
    obtain ⟨h1, -⟩ := h
    subst h1
    simp [World.log]

theorem localCopy_result {env : Env} {src dst : String} {w w' : World} {r : Option Err}
    (h : localCopy env src dst w = (w', r)) :
    w'.proj = w.proj ∧ w'.limit = w.limit ∧
    w'.trace = w.trace ++ [Event.localCopy src dst] := by
  unfold localCopy at h
  split at h
  · simp only [Prod.mk.injEq] at h
    obtain ⟨h1, -⟩ := h
    subst h1
    simp [World.log]
  · split at h <;>
    · simp only [Prod.mk.injEq] at h
      obtain ⟨h1, -⟩ := h
      subst h1
      simp [World.log]

theorem createVolumeSnapshot_ok {env : Env} {d : Driver} {snapVol : Volume} {w w' : World}
    (h : CreateVolumeSnapshot env d snapVol w = (w', none)) :
    w'.proj = w.proj ∧ w'.limit = w.limit ∧
    ∃ evs, w'.trace = w.trace ++ evs ∧
      actions evs = [Event.localCopy
        (getVolumeMountPath d.name snapVol.volType
          (instanceGetParentAndSnapshotName snapVol.name).1) snapVol.MountPath] := by
  unfold CreateVolumeSnapshot at h
  simp only at h
  split at h
  · simp at h
  · rename_i w1 h1
    split at h
    · simp at h
    · rename_i w2 h2
      split at h
      · simp at h
      · rename_i w3 h3
        simp only [Prod.mk.injEq, and_true] at h
        subst h
        obtain ⟨hp3, hl3, ht3⟩ := localCopy_result h3
        obtain ⟨hp2, hl2, ht2⟩ := mkdirAll_result h2
        have h1' : w1.proj = w.proj ∧ w1.limit = w.limit ∧
            ∃ evs, w1.trace = w.trace ++ evs ∧ actions evs = [] := by
          unfold createParentSnapshotDirIfMissing at h1
          simp only at h1
          split at h1
          · obtain ⟨a, b, c⟩ := mkdir_result h1
            exact ⟨a, b, _, c, rfl⟩
          · simp only [Prod.mk.injEq, and_true] at h1
            subst h1
            exact ⟨rfl, rfl, [], by simp, rfl⟩
        obtain ⟨hp1, hl1, evs1, ht1, ha1⟩ := h1'
        refine ⟨by rw [hp3, hp2, hp1], by rw [hl3, hl2, hl1],
          evs1 ++ [Event.mkdirAll snapVol.MountPath] ++
            [Event.localCopy (getVolumeMountPath d.name snapVol.volType
              (instanceGetParentAndSnapshotName snapVol.name).1) snapVol.MountPath], ?_, ?_⟩
        · rw [ht3, ht2, ht1]
          simp [Volume.CreateMountPath]
        · rw [actions_append, actions_append, ha1]
          rfl

theorem recvSnapshots_ok (env : Env) (d : Driver) (vol : Volume) (path : String)
    (snaps : List String) :
    ∀ (init : List String) (w : World) (rs : List String) (w' : World),
      recvSnapshots env d vol path snaps init w = (rs, w', none) →
      rs = init ++ snaps ∧ w'.proj = w.proj ∧ w'.limit = w.limit ∧
      ∃ evs, w'.trace = w.trace ++ evs ∧ actions evs = snapshotActions d vol path snaps := by
  induction snaps with
  | nil =>
    intro init w rs w' h
    simp only [recvSnapshots, Prod.mk.injEq, and_true] at h
    obtain ⟨h1, h2⟩ := h
    subst h1 h2
    exact ⟨by simp, rfl, rfl, [], by simp, rfl⟩
  | cons a snaps ih =>
    intro init w rs w' h
    simp only [recvSnapshots] at h
    split at h
    · simp at h
    · rename_i w1 h1
      split at h
      · simp at h
      · rename_i w2 h2
        obtain ⟨hrs, hp, hl, evs, ht, ha⟩ := ih _ _ _ _ h
        obtain ⟨hp1, hl1, ht1⟩ := rsyncRecv_result h1
        obtain ⟨hp2, hl2, evs2, ht2, ha2⟩ := createVolumeSnapshot_ok h2
        refine ⟨by simp [hrs], by rw [hp, hp2, hp1], by rw [hl, hl2, hl1],
          [Event.recv path] ++ evs2 ++ evs, ?_, ?_⟩
        · rw [ht, ht2, ht1]
          simp
        · rw [actions_append, actions_append, ha, ha2]
          rfl

theorem initQuota_ok {env : Env} {path : String} {volID : Int} {w w' : World}
    (h : initQuota env path volID w = (w', none)) :
    volID ≠ 0 ∧ w'.fs = w.fs ∧
    w'.trace = w.trace ++
      (if env.quotaOn path then
        [Event.supported path, Event.setProject path (quotaProjectID volID)]
      else [Event.supported path]) := by
  have hz : volID ≠ 0 := by
    intro hz
    simp [hz, initQuota] at h
  rw [initQuota_of_ne _ _ _ _ hz] at h
  refine ⟨hz, ?_⟩
  by_cases hq : env.quotaOn path = true
  · rw [if_pos hq] at h
    simp only [Prod.mk.injEq, and_true] at h
    subst h
    simp [hq]
  · rw [if_neg hq] at h
    simp only [Prod.mk.injEq, and_true] at h
    subst h
    simp [hq, World.log]

theorem setQuota_ok {env : Env} {d : Driver} {path size : String} {volID : Int} {w w' : World}
    (h : setQuota env d path volID size w = (w', none)) :
    volID ≠ 0 ∧ w'.fs = w.fs ∧
    ∃ n, (parseByteSizeString env (quotaSize d size) w).2 = .ok n ∧
      w'.trace = w.trace ++
        (if env.quotaOn path then
          [Event.parseSize (quotaSize d size), Event.supported path,
            Event.setProjectQuota path (quotaProjectID volID) n]
        else [Event.parseSize (quotaSize d size), Event.supported path]) := by
  have hz : volID ≠ 0 := by
    intro hz
    simp [hz, setQuota] at h
  refine ⟨hz, ?_⟩
  cases hp : (parseByteSizeString env (quotaSize d size) w).2 with
  | error e =>
    rw [setQuota_parse_error env d path size volID w hz e hp] at h
    simp at h
  | ok n =>
    rw [setQuota_parse_ok env d path size volID w hz n hp] at h
    simp only [Prod.mk.injEq, and_true] at h
    subst h
    by_cases hq : env.quotaOn path = true
    · simp [hq]
    · simp [hq]

theorem migrationTask_ok {env : Env} {d : Driver} {vol : Volume} {args : VolumeTargetArgs}
    {preFiller : Option VolumeFiller} {volID : Int} {mountPath : String}
    {init rs : List String} {w w' : World}
    (h : migrationTask env d vol args preFiller volID vol.MountPath mountPath init w =
      (rs, w', none)) :
    volID ≠ 0 ∧ rs = init ++ args.Snapshots ∧
    ∃ sizeBytes evs, w'.trace = w.trace ++ evs ∧
      actions evs = fillerActions preFiller (addSlash mountPath) "" ++
        snapshotActions d vol (addSlash mountPath) args.Snapshots ++
        quotaActions env d vol.MountPath volID (vol.config.get "size") sizeBytes ++
        [Event.recv (addSlash mountPath)] ++
        (if args.Live then [Event.recv (addSlash mountPath)] else []) := by
  unfold migrationTask at h
  simp only at h
  split at h
  · simp at h
  · rename_i w1 h1
    split at h
    · simp at h
    · rename_i rs2 w2 h2
      split at h
      · simp at h
      · rename_i w3 h3
        split at h
        · simp at h
        · rename_i w4 h4
          split at h
          · simp at h
          · rename_i w5 h5
            obtain ⟨-, -, ht1⟩ := runFiller_result h1
            obtain ⟨hrs, -, -, evs2, ht2, ha2⟩ := recvSnapshots_ok _ _ _ _ _ _ _ _ _ h2
            obtain ⟨hz, -, ht3⟩ := initQuota_ok h3
            obtain ⟨-, -, n, -, ht4⟩ := setQuota_ok h4
            obtain ⟨-, -, ht5⟩ := rsyncRecv_result h5
            have hfa : actions (fillerActions preFiller (addSlash mountPath) "") =
                fillerActions preFiller (addSlash mountPath) "" := by
              unfold fillerActions
              split <;> rfl
            have hqa : actions (quotaActions env d vol.MountPath volID (vol.config.get "size") n)
                = quotaActions env d vol.MountPath volID (vol.config.get "size") n := by
              unfold quotaActions
              by_cases hq : env.quotaOn vol.MountPath = true
              · simp only [hq, if_true]; rfl
              · simp only [hq]; rfl
            have hw5 : w5.trace = w.trace ++ (fillerActions preFiller (addSlash mountPath) "" ++
                evs2 ++ quotaActions env d vol.MountPath volID (vol.config.get "size") n ++
                [Event.recv (addSlash mountPath)]) := by
              rw [ht5, ht4, ht3, ht2, ht1]
              simp [quotaActions]
            by_cases hlive : args.Live = true
            · rw [if_pos hlive] at h
              split at h
              · simp at h
              · rename_i w6 h6
                obtain ⟨-, -, ht6⟩ := rsyncRecv_result h6
                simp only [Prod.mk.injEq, and_true] at h
                obtain ⟨hr, hw⟩ := h
                subst hr hw
                refine ⟨hz, hrs, n, _, by rw [ht6, hw5, List.append_assoc], ?_⟩
                simp only [actions_append, hfa, ha2, hqa, hlive, if_true]
                rfl
            · rw [if_neg hlive] at h
              simp only [Prod.mk.injEq, and_true] at h
              obtain ⟨hr, hw⟩ := h
              subst hr hw
              refine ⟨hz, hrs, n, _, hw5, ?_⟩
              simp only [actions_append, hfa, ha2, hqa, hlive]
              simp [actions, isAction]

theorem filter_isRecv_actions (evs : List Event) :
    (actions evs).filter isRecv = evs.filter isRecv := by
  unfold actions
  rw [List.filter_filter]
  congr 1
  funext e
  cases e <;> rfl

theorem snapshotActions_recv (d : Driver) (vol : Volume) (path : String) (snaps : List String) :
    ((snapshotActions d vol path snaps).filter isRecv).length = snaps.length := by
  induction snaps with
  | nil => rfl
  | cons a snaps ih => simp [snapshotActions, isRecv, ih]

theorem fillerActions_recv (filler : Option VolumeFiller) (path rootBlockPath : String) :
    (fillerActions filler path rootBlockPath).filter isRecv = [] := by
  unfold fillerActions
  split <;> rfl

theorem quotaActions_recv (env : Env) (d : Driver) (volPath : String) (volID : Int)
    (size : String) (n : Int) :
    (quotaActions env d volPath volID size n).filter isRecv = [] := by
  unfold quotaActions
  by_cases hq : env.quotaOn volPath = true
  · simp only [hq, if_true]; rfl
  · simp only [hq]; rfl

/-- Claim C3: the actions of a successful `CreateVolumeFromMigration` are, in
order: the pre-filler when supplied; for each target snapshot in list order one
receive followed by the copy that registers the snapshot; quota init and set;
the main-volume receive; one more receive when the migration is live.  The
receives number `n + 1`, plus one when live. -/
theorem createVolumeFromMigration_order (env : Env) (d : Driver) (vol : Volume)
    (args : VolumeTargetArgs) (preFiller : Option VolumeFiller) (w : World)
    (h : (CreateVolumeFromMigration env d vol args preFiller w).2 = none) :
    ∃ volID sizeBytes evs,
      env.getVolID vol.volType vol.name = .ok volID ∧
      (CreateVolumeFromMigration env d vol args preFiller w).1.trace = w.trace ++ evs ∧
      actions evs =
        fillerActions preFiller (addSlash vol.MountPath) "" ++
        snapshotActions d vol (addSlash vol.MountPath) args.Snapshots ++
        quotaActions env d vol.MountPath volID (vol.config.get "size") sizeBytes ++
        [Event.recv (addSlash vol.MountPath)] ++
        (if args.Live then [Event.recv (addSlash vol.MountPath)] else []) ∧
      (evs.filter isRecv).length =
        args.Snapshots.length + 1 + (if args.Live then 1 else 0) := by
  have main : ∃ volID sizeBytes evs,
      env.getVolID vol.volType vol.name = .ok volID ∧
      (CreateVolumeFromMigration env d vol args preFiller w).1.trace = w.trace ++ evs ∧
      actions evs =
        fillerActions preFiller (addSlash vol.MountPath) "" ++
        snapshotActions d vol (addSlash vol.MountPath) args.Snapshots ++
        quotaActions env d vol.MountPath volID (vol.config.get "size") sizeBytes ++
        [Event.recv (addSlash vol.MountPath)] ++
        (if args.Live then [Event.recv (addSlash vol.MountPath)] else []) := by
    unfold CreateVolumeFromMigration at h ⊢
    split at h
    · simp at h
    · split at h
      · simp at h
      · rename_i hct hfs
        rw [if_neg hct, if_neg hfs]
        simp only [getVolID] at h ⊢
        cases hv : env.getVolID vol.volType vol.name with
        | error e => simp [hv, Except.mapError] at h
        | ok volID =>
          simp only [hv, Except.mapError] at h ⊢
          rcases hmk : vol.CreateMountPath env (w.log (Event.getVolID vol.volType vol.name))
            with ⟨w2, r2⟩
          rw [hmk] at h
          cases r2 with
          | some e =>
            simp at h
          | none =>
            simp only at h ⊢
            obtain ⟨-, -, htm⟩ := mkdirAll_result hmk
            rcases hmt : vol.MountTask env
              (migrationTask env d vol args preFiller volID vol.MountPath) [] w2
              with ⟨rs, w3, r3⟩
            rw [hmt] at h
            cases r3 with
            | some e => simp at h
            | none =>
              simp only
              rcases mountTask_result hmt with ⟨-, ht⟩ | ⟨-, -, -, e, he, -⟩ | ⟨-, -, wt, ht, hw3⟩
              · obtain ⟨-, -, n, evs, hte, hae⟩ := migrationTask_ok ht
                refine ⟨volID, n, [Event.getVolID vol.volType vol.name,
                  Event.mkdirAll vol.MountPath] ++ evs, rfl, ?_, ?_⟩
                · rw [hte, htm]; simp [World.log]
                · rw [actions_append, hae]; rfl
              · simp at he
              · obtain ⟨-, -, n, evs, hte, hae⟩ := migrationTask_ok ht
                refine ⟨volID, n, [Event.getVolID vol.volType vol.name,
                  Event.mkdirAll vol.MountPath, Event.mountReadOnly vol.MountPath] ++ evs ++
                  [Event.unmount vol.MountPath], rfl, ?_, ?_⟩
                · rw [hw3]; simp [World.log, hte, htm]
                · rw [actions_append, actions_append, hae]
                  simp [actions, isAction]
  obtain ⟨volID, n, evs, hv, ht, ha⟩ := main
  refine ⟨volID, n, evs, hv, ht, ha, ?_⟩
  rw [← filter_isRecv_actions, ha]
  simp only [List.filter_append, List.length_append, fillerActions_recv, quotaActions_recv,
    snapshotActions_recv, List.length_nil, zero_add, add_zero]
  by_cases hl : args.Live = true
  · simp [hl, isRecv]
  · simp [hl, isRecv]

theorem createVolumeFromMigration_order_witness :
    ∃ evs, (CreateVolumeFromMigration exEnv exDriver exVol exTargetArgs none exWorld).1.trace =
        exWorld.trace ++ evs ∧
      (evs.filter isRecv).length = exTargetArgs.Snapshots.length + 1 + 1 := by
  obtain ⟨_, _, evs, _, ht, _, hc⟩ :=
    createVolumeFromMigration_order exEnv exDriver exVol exTargetArgs none exWorld (by decide)
  exact ⟨evs, ht, hc⟩

theorem createVolume_failing_filler_leaves_no_trace_witness :
    (CreateVolume exEnv exDriver exVol (some ⟨some exFailingFill⟩) exWorld).2 =
      some (Err.external "fill failed") ∧
    pathExists (CreateVolume exEnv exDriver exVol (some ⟨some exFailingFill⟩) exWorld).1.fs
      exVol.MountPath = false :=
  have h := createVolume_failing_filler_leaves_no_trace exEnv exDriver exVol exFailingFill
    exWorld (exVol.CreateMountPath exEnv exWorld).1
    (setupInitialQuota exEnv exDriver exVol (exVol.CreateMountPath exEnv exWorld).1).1
    (some (fun w => (deleteQuota exEnv exVol.MountPath 1 w).1)) "fill failed"
    rfl (pair_eq (by decide)) rfl rfl
  ⟨h.1, h.2.1⟩

/-- Claim C10, evaluation at the failing input: copying the source snapshot
`c0/s1` into the destination fails (the call is made and the environment fails
it), yet `copyVolume` reports success and has registered the destination
snapshot `c1/s1` with the empty tree the destination had, not the tree `one` of
the source snapshot; the same happens when mounting the source snapshot fails. -/
theorem copyVolume_swallows_snapshot_copy_failure :
    exEnvFailSnapshotCopy.fail []
      (Event.localCopy "/var/lib/lxd/storage-pools/p/containers-snapshots/c0/s1"
        "/var/lib/lxd/storage-pools/p/containers/c1") = some "rsync failed" ∧
    Event.localCopy "/var/lib/lxd/storage-pools/p/containers-snapshots/c0/s1"
        "/var/lib/lxd/storage-pools/p/containers/c1" ∈
      (copyVolume exEnvFailSnapshotCopy exDriver exVol exSrcVol exSrcSnapshots exSrcWorld).1.trace ∧
    (copyVolume exEnvFailSnapshotCopy exDriver exVol exSrcVol exSrcSnapshots exSrcWorld).2 = none ∧
    fsTree (copyVolume exEnvFailSnapshotCopy exDriver exVol exSrcVol exSrcSnapshots exSrcWorld).1.fs
      (destSnapshot exDriver exVol "s1").MountPath = some [] ∧
    fsTree exSrcWorld.fs "/var/lib/lxd/storage-pools/p/containers-snapshots/c0/s1" = some ["one"] ∧
    (copyVolume exEnvFailSnapshotMount exDriver exVol exSrcVol exSrcSnapshots exSrcWorld).2 = none ∧
    fsTree (copyVolume exEnvFailSnapshotMount exDriver exVol exSrcVol exSrcSnapshots exSrcWorld).1.fs
      (destSnapshot exDriver exVol "s1").MountPath = some [] := by
  decide

/-- Claim C6: `quotaProjectID volID` is `volID + 10000` reduced modulo `2^32`, for
every `volID`; it is `volID + 10000` itself whenever that lies in `[0, 2^32)`. -/
theorem quotaProjectID_truncates (volID : Int) :
    (quotaProjectID volID : Int) = (volID + 10000) % 4294967296 ∧
    (0 ≤ volID + 10000 → volID + 10000 < 4294967296 →
      (quotaProjectID volID : Int) = volID + 10000) := by
  unfold quotaProjectID wrapInt64
  constructor
  · rw [Int.toNat_of_nonneg (by omega)]
    omega
  · intro h1 h2
    rw [Int.toNat_of_nonneg (by omega)]
    omega

theorem quotaProjectID_truncates_witness : (quotaProjectID 1 : Int) = 1 + 10000 :=
  (quotaProjectID_truncates 1).2 (by decide) (by decide)

/-- Claim C15, counterexample: the volume ids `-10000` and `4294957296` are non-zero
signed 64-bit values, and `quotaProjectID` maps both to the project id zero. -/
theorem quotaProjectID_zero_for_nonzero_volID :
    ((-10000 : Int) ≠ 0 ∧ -9223372036854775808 ≤ (-10000 : Int) ∧
      quotaProjectID (-10000) = 0) ∧
    ((4294957296 : Int) ≠ 0 ∧ (4294957296 : Int) < 9223372036854775808 ∧
      quotaProjectID 4294957296 = 0) := by
  decide

/-- Claim C15, amended: `quotaProjectID volID` is zero exactly when `volID + 10000`
is a multiple of `2^32`; so it is non-zero for every `volID` from 1 up to
`2^32 - 10001`, and zero is not excluded by `volID != 0` alone. -/
theorem quotaProjectID_ne_zero (volID : Int) :
    (quotaProjectID volID = 0 ↔ (volID + 10000) % 4294967296 = 0) ∧
    (0 < volID → volID < 4294957296 → quotaProjectID volID ≠ 0) := by
  have h : (quotaProjectID volID : Int) = (volID + 10000) % 4294967296 := by
    unfold quotaProjectID wrapInt64
    rw [Int.toNat_of_nonneg (by omega)]
    omega
  constructor
  · constructor
    · intro h0
      rw [← h, h0]
      rfl
    · intro h0
      rw [h0] at h
      exact_mod_cast h
  · intro h1 h2 h0
    rw [h0] at h
    have : (0 : Int) = (volID + 10000) % 4294967296 := by exact_mod_cast h
    omega

theorem quotaProjectID_ne_zero_witness : quotaProjectID 1 ≠ 0 :=
  (quotaProjectID_ne_zero 1).2 (by decide) (by decide)

/-- Claim C12, counterexample: on a filesystem without quota support `initQuota`
and `deleteQuota` with volume id zero fail with the missing-volume-id error, and
`setQuota` with a size that does not parse fails with the parser's error. -/
theorem quota_ops_fail_without_support :
    exEnvNoQuota.quotaOn exVol.MountPath = false ∧
    (initQuota exEnvNoQuota exVol.MountPath 0 exWorld).2 = some Err.missingVolumeID ∧
    (deleteQuota exEnvNoQuota exVol.MountPath 0 exWorld).2 = some Err.missingVolumeID ∧
    (setQuota exEnvNoQuota exDriver exVol.MountPath 1 "1XB" exWorld).2 =
      some (Err.external "invalid size") := by
  decide

/-- Claim C12, amended: without quota support and for a non-zero volume id,
`initQuota` and `deleteQuota` report success and `setQuota` reports success for
every size that parses (also a positive one); each leaves the tree and the quota
table unchanged and makes no quota-mechanism call: the only calls are the
support query and, for `setQuota`, the parse before it. -/
theorem quota_ops_noop_without_support (env : Env) (d : Driver) (path size : String)
    (volID : Int) (w : World) (hoff : env.quotaOn path = false) (hz : volID ≠ 0) :
    initQuota env path volID w =
      ({ fs := w.fs, proj := w.proj, limit := w.limit,
         trace := w.trace ++ [Event.supported path] }, none) ∧
    deleteQuota env path volID w =
      ({ fs := w.fs, proj := w.proj, limit := w.limit,
         trace := w.trace ++ [Event.supported path] }, none) ∧
    (∀ n, (parseByteSizeString env (quotaSize d size) w).2 = .ok n →
      setQuota env d path volID size w =
        ({ fs := w.fs, proj := w.proj, limit := w.limit,
           trace := w.trace ++ [Event.parseSize (quotaSize d size), Event.supported path] },
          none)) := by
  refine ⟨?_, ?_, ?_⟩
  · rw [initQuota_of_ne env path volID w hz]
    simp [hoff, World.log]
  · rw [deleteQuota_of_ne env path volID w hz]
    simp [hoff, World.log]
  · intro n hn
    rw [setQuota_parse_ok env d path size volID w hz n hn]
    simp [hoff]

theorem quota_ops_noop_without_support_witness :
    (initQuota exEnvNoQuota exVol.MountPath 1 exWorldLimited).2 = none ∧
    (setQuota exEnvNoQuota exDriver exVol.MountPath 1 "" exWorldLimited).1.limit 10001 = 5000 :=
  have h := quota_ops_noop_without_support exEnvNoQuota exDriver exVol.MountPath "" 1
    exWorldLimited (by decide) (by decide)
  ⟨by rw [h.1], by rw [h.2.2 0 rfl]; decide⟩

/-- Claim C13, counterexample: for a block volume `UpdateVolume` fails with the
content-type error although the changed config has no `size` key. -/
theorem updateVolume_block_fails :
    Config.has [("security.foo", "1")] "size" = false ∧
    (UpdateVolume exEnv exDriver exBlockVol [("security.foo", "1")] exWorld).2 =
      some Err.contentTypeNotSupported := by
  decide

/-- Claim C13, amended: for a filesystem volume, a changed config without the key
`size` makes `UpdateVolume` return success with the world untouched (no volume-id
lookup, no quota call); with the key `size` it looks the volume id up and runs
`setQuota` on the mount path with the new size, returning the lookup's error
when the lookup fails.  For a volume that is not a filesystem volume it returns
the content-type error with the world untouched, whatever the changed config. -/
theorem updateVolume_only_size (env : Env) (d : Driver) (vol : Volume) (changedConfig : Config)
    (w : World) :
    (vol.contentType ≠ .fs →
      UpdateVolume env d vol changedConfig w = (w, some Err.contentTypeNotSupported)) ∧
    (vol.contentType = .fs → changedConfig.has "size" = false →
      UpdateVolume env d vol changedConfig w = (w, none)) ∧
    (vol.contentType = .fs → changedConfig.has "size" = true →
      (∀ volID, env.getVolID vol.volType vol.name = .ok volID →
        UpdateVolume env d vol changedConfig w =
          setQuota env d vol.MountPath volID (changedConfig.get "size")
            (w.log (Event.getVolID vol.volType vol.name))) ∧
      (∀ e, env.getVolID vol.volType vol.name = .error e →
        UpdateVolume env d vol changedConfig w =
          (w.log (Event.getVolID vol.volType vol.name), some (Err.external e)))) := by
  refine ⟨?_, ?_, ?_⟩
  · intro hb
    simp [UpdateVolume, hb]
  · intro hfs hno
    simp [UpdateVolume, hfs, hno]
  · intro hfs hyes
    have hne : ¬ vol.contentType ≠ ContentType.fs := by simp [hfs]
    refine ⟨?_, ?_⟩
    · intro volID hv
      simp only [UpdateVolume, if_neg hne, hyes, if_true, getVolID, hv, Except.mapError]
      rcases hs : setQuota env d vol.MountPath volID (changedConfig.get "size")
        (w.log (Event.getVolID vol.volType vol.name)) with ⟨w2, r⟩
      cases r <;> rfl
    · intro e hv
      simp only [UpdateVolume, if_neg hne, hyes, if_true, getVolID, hv, Except.mapError]

theorem updateVolume_only_size_witness :
    UpdateVolume exEnv exDriver exVol [("security.foo", "1")] exWorld = (exWorld, none) :=
  (updateVolume_only_size exEnv exDriver exVol [("security.foo", "1")] exWorld).2.1 rfl
    (by decide)
/-- Claim C11, evaluation at the failing inputs: with quota support, `copyVolume`
whose final tree copy fails and `CreateVolumeFromMigration` whose main receive
fails both return the error and remove the destination directory, yet the limit
of 5000 bytes set for project 10001 during the call and the assignment of the
destination path to that project are still in the quota table, where they were
not before the call. -/
theorem copy_and_migration_leave_quota_behind :
    exSrcWorld.limit 10001 = 0 ∧ exSrcWorld.proj exSizedVol.MountPath = 0 ∧
    (copyVolume exEnvFailFinalCopy exDriver exSizedVol exSrcVol [] exSrcWorld).2 =
      some (Err.external "rsync failed") ∧
    pathExists (copyVolume exEnvFailFinalCopy exDriver exSizedVol exSrcVol [] exSrcWorld).1.fs
      exSizedVol.MountPath = false ∧
    (copyVolume exEnvFailFinalCopy exDriver exSizedVol exSrcVol [] exSrcWorld).1.limit 10001
      = 5000 ∧
    (copyVolume exEnvFailFinalCopy exDriver exSizedVol exSrcVol [] exSrcWorld).1.proj
      exSizedVol.MountPath = 10001 ∧
    (CreateVolumeFromMigration exEnvFailRecv exDriver exSizedVol exPlainTargetArgs none
      exWorld).2 = some (Err.external "recv failed") ∧
    pathExists (CreateVolumeFromMigration exEnvFailRecv exDriver exSizedVol exPlainTargetArgs
      none exWorld).1.fs exSizedVol.MountPath = false ∧
    (CreateVolumeFromMigration exEnvFailRecv exDriver exSizedVol exPlainTargetArgs none
      exWorld).1.limit 10001 = 5000 ∧
    (CreateVolumeFromMigration exEnvFailRecv exDriver exSizedVol exPlainTargetArgs none
      exWorld).1.proj exSizedVol.MountPath = 10001 := by
  decide

theorem toList_append (a b : String) : (a ++ b).toList = a.toList ++ b.toList := rfl

theorem isUnder_iff (p q : String) :
    isUnder p q = true ↔ ∃ rest, q.toList = p.toList ++ '/' :: rest := by
  unfold isUnder
  rw [List.isPrefixOf_iff_prefix]
  constructor
  · rintro ⟨r, hr⟩
    exact ⟨r, by rw [← hr, toList_append]; simp [String.toList]⟩
  · rintro ⟨r, hr⟩
    exact ⟨r, by rw [hr, toList_append]; simp [String.toList]⟩

theorem atOrUnder_iff (p q : String) :
    atOrUnder p q = true ↔ q = p ∨ ∃ rest, q.toList = p.toList ++ '/' :: rest := by
  unfold atOrUnder
  rw [Bool.or_eq_true, beq_iff_eq, isUnder_iff]

/-- A path relative to a directory: empty, or starting with a slash. -/
theorem subtree_rel {fs : FsState} {p : String} {x : String × Tree} (h : x ∈ subtree fs p) :
    x.1 = "" ∨ ∃ rest, x.1.toList = '/' :: rest := by
  unfold subtree at h
  rw [List.mem_filterMap] at h
  obtain ⟨e, -, he⟩ := h
  split at he
  · rename_i hau
    simp only [Option.some.injEq] at he
    subst he
    rcases (atOrUnder_iff p e.1).mp hau with heq | ⟨rest, hrest⟩
    · left
      rw [heq]
      show String.mk (List.drop p.toList.length p.toList) = ""
      rw [List.drop_length]
    · right
      refine ⟨rest, ?_⟩
      show List.drop p.toList.length e.1.toList = '/' :: rest
      rw [hrest, List.drop_left]
  · simp at he

theorem subtree_append (a b : FsState) (p : String) :
    subtree (a ++ b) p = subtree a p ++ subtree b p := by
  unfold subtree
  rw [List.filterMap_append]

theorem subtree_fsRemoveAll_self (fs : FsState) (p : String) :
    subtree (fsRemoveAll fs p) p = [] := by
  unfold subtree fsRemoveAll
  rw [List.filterMap_eq_nil_iff]
  intro e he
  have h2 := (List.mem_filter.mp he).2
  have : atOrUnder p e.1 = false := by
    unfold atOrUnder
    simpa using h2
  simp [this]

theorem subtree_entry_of_rel (dst : String) (x : String × Tree)
    (h : x.1 = "" ∨ ∃ rest, x.1.toList = '/' :: rest) :
    (if atOrUnder dst (dst ++ x.1) then
      some (String.mk ((dst ++ x.1).toList.drop dst.toList.length), x.2) else none) = some x := by
  have hau : atOrUnder dst (dst ++ x.1) = true := by
    rw [atOrUnder_iff]
    rcases h with h0 | ⟨rest, hrest⟩
    · left; rw [h0]; exact String.append_empty dst
    · right; exact ⟨rest, by rw [toList_append, hrest]⟩
  rw [if_pos hau, toList_append, List.drop_left]
  rfl

theorem subtree_map_rel (dst : String) (l : List (String × Tree))
    (h : ∀ x ∈ l, x.1 = "" ∨ ∃ rest, x.1.toList = '/' :: rest) :
    subtree (l.map (fun e => (dst ++ e.1, e.2))) dst = l := by
  induction l with
  | nil => rfl
  | cons x l ih =>
    have hx := subtree_entry_of_rel dst x (h x (List.mem_cons_self _ _))
    have hl := ih (fun y hy => h y (List.mem_cons_of_mem _ hy))
    unfold subtree at hl ⊢
    rw [List.map_cons, List.filterMap_cons]
    simp only [hx]
    rw [hl]

/-- The copy makes the tree at the destination the tree at the source, unless
the source lies inside the destination. -/
theorem subtree_fsCopyTree (fs : FsState) (src dst : String) (h : isUnder dst src = false) :
    subtree (fsCopyTree fs src dst) dst = subtree fs src := by
  unfold fsCopyTree
  rw [if_neg (by simp [h]), subtree_append, subtree_fsRemoveAll_self, List.nil_append]
  exact subtree_map_rel dst _ (fun x hx => subtree_rel hx)
theorem side_of_atOrUnder {A X : List Char} {c : Char} {P q : String}
    (hP : P.toList = A ++ c :: X) (h : atOrUnder P q = true) : (A ++ [c]) <+: q.toList := by
  rcases (atOrUnder_iff P q).mp h with heq | ⟨rest, hrest⟩
  · rw [heq, hP]
    exact ⟨X, by simp⟩
  · rw [hrest, hP]
    exact ⟨X ++ '/' :: rest, by simp⟩

theorem sides_disjoint {A L : List Char} {c₁ c₂ : Char} (hne : c₁ ≠ c₂)
    (h₁ : (A ++ [c₁]) <+: L) (h₂ : (A ++ [c₂]) <+: L) : False := by
  obtain ⟨r₁, hr₁⟩ := h₁
  obtain ⟨r₂, hr₂⟩ := h₂
  rw [← hr₂, List.append_assoc, List.append_assoc] at hr₁
  have := List.append_cancel_left hr₁
  simp only [List.singleton_append, List.cons.injEq] at this
  exact hne this.1

/-- Two directories that part ways after a common stem hold no common path. -/
theorem atOrUnder_disjoint {A X Y : List Char} {c₁ c₂ : Char} {P Q : String} (hne : c₁ ≠ c₂)
    (hP : P.toList = A ++ c₁ :: X) (hQ : Q.toList = A ++ c₂ :: Y) (q : String)
    (h₁ : atOrUnder P q = true) (h₂ : atOrUnder Q q = true) : False :=
  sides_disjoint hne (side_of_atOrUnder hP h₁) (side_of_atOrUnder hQ h₂)

theorem atOrUnder_self (p : String) : atOrUnder p p = true := by
  rw [atOrUnder_iff]
  exact Or.inl rfl

theorem isUnder_false_of_disjoint {A X Y : List Char} {c₁ c₂ : Char} {P Q : String}
    (hne : c₁ ≠ c₂) (hP : P.toList = A ++ c₁ :: X) (hQ : Q.toList = A ++ c₂ :: Y) :
    isUnder P Q = false := by
  cases h : isUnder P Q with
  | false => rfl
  | true =>
    exfalso
    have h₁ : atOrUnder P Q = true := by
      unfold atOrUnder
      rw [h, Bool.or_true]
    exact atOrUnder_disjoint hne hP hQ Q h₁ (atOrUnder_self Q)

theorem subtree_fsMkdir_outside (fs : FsState) (p q : String) (h : atOrUnder p q = false) :
    subtree (fsMkdir fs q) p = subtree fs p := by
  unfold fsMkdir
  split
  · rfl
  · rw [subtree_append]
    have : subtree [(q, ([] : Tree))] p = [] := by
      unfold subtree
      simp [h]
    rw [this, List.append_nil]

theorem subtree_fsRemoveAll_other (fs : FsState) (p r : String)
    (h : ∀ q, atOrUnder p q = true → atOrUnder r q = true → False) :
    subtree (fsRemoveAll fs r) p = subtree fs p := by
  unfold subtree fsRemoveAll
  rw [List.filterMap_filter]
  apply List.filterMap_congr
  intro e _
  by_cases hp : atOrUnder p e.1 = true
  · have hr : atOrUnder r e.1 = false := by
      cases hr : atOrUnder r e.1 with
      | false => rfl
      | true => exact absurd (h e.1 hp hr) id
    have hr' : (e.1 == r || isUnder r e.1) = false := hr
    simp [hp, hr']
  · simp [hp]

theorem snapshot_name_split (name s : String) (h : isSnapshotName name = false) :
    instanceGetParentAndSnapshotName (getSnapshotVolumeName name s) = (name, s, true) := by
  have hall : ∀ c ∈ name.toList, (c != '/') = true := by
    unfold isSnapshotName instanceGetParentAndSnapshotName at h
    rw [List.span_eq_take_drop] at h
    have hd : name.toList.dropWhile (fun c => c != '/') = [] := by
      cases hdw : name.toList.dropWhile (fun c => c != '/') with
      | nil => rfl
      | cons a l => rw [hdw] at h; simp at h
    exact List.dropWhile_eq_nil_iff.mp hd
  unfold instanceGetParentAndSnapshotName getSnapshotVolumeName
  have hl : (name ++ "/" ++ s).toList = name.toList ++ '/' :: s.toList := by
    simp [String.toList, String.data_append]
  rw [hl, List.span_eq_take_drop, List.takeWhile_append_of_pos hall,
    List.dropWhile_append_of_pos hall]
  simp [List.takeWhile, List.dropWhile]

theorem parent_of_plain_name (name : String) (h : isSnapshotName name = false) :
    (instanceGetParentAndSnapshotName name).1 = name := by
  unfold isSnapshotName at h
  unfold instanceGetParentAndSnapshotName at h ⊢
  split
  · rfl
  · rename_i a c b heq
    rw [heq] at h
    simp at h

/-- The layout of a plain volume: its mount path continues the common stem with
`/`, the snapshot directory and every snapshot path with `-`. -/
theorem layout_of_plain_name (pool : String) (t : VolumeType) (name s : String)
    (h : isSnapshotName name = false) :
    ∃ X Y Z,
      (getVolumeMountPath pool t name).toList =
        (getPoolMountPath pool ++ "/" ++ t.dir).toList ++ '/' :: X ∧
      (getVolumeMountPath pool t (getSnapshotVolumeName name s)).toList =
        (getPoolMountPath pool ++ "/" ++ t.dir).toList ++ '-' :: Y ∧
      (getVolumeSnapshotDir pool t name).toList =
        (getPoolMountPath pool ++ "/" ++ t.dir).toList ++ '-' :: Z := by
  have hsplit := snapshot_name_split name s h
  have hsnap : isSnapshotName (getSnapshotVolumeName name s) = true := by
    unfold isSnapshotName
    rw [hsplit]
  refine ⟨name.toList, ("snapshots/" ++ getSnapshotVolumeName name s).toList,
    ("snapshots/" ++ (instanceGetParentAndSnapshotName name).1).toList, ?_, ?_, ?_⟩
  · unfold getVolumeMountPath
    rw [if_neg (by simp [h])]
    simp only [toList_append]
    simp [String.toList]
  · unfold getVolumeMountPath
    rw [if_pos hsnap]
    simp only [toList_append]
    simp [String.toList]
  · unfold getVolumeSnapshotDir
    simp only [toList_append]
    simp [String.toList]
theorem localCopy_fs {env : Env} {src dst : String} {w w' : World}
    (h : localCopy env src dst w = (w', none)) : w'.fs = fsCopyTree w.fs src dst := by
  unfold localCopy at h
  split at h
  · simp at h
  · split at h
    · simp only [Prod.mk.injEq, and_true] at h
      subst h
      rfl
    · simp at h

theorem mkdirAll_subtree {env : Env} {p q : String} {w w' : World} {r : Option Err}
    (h : mkdirAll env q w = (w', r)) (hout : atOrUnder p q = false) :
    subtree w'.fs p = subtree w.fs p := by
  unfold mkdirAll at h
  split at h <;>
  · simp only [Prod.mk.injEq] at h
    obtain ⟨h1, -⟩ := h
    subst h1
    first
      | rfl
      | exact subtree_fsMkdir_outside _ _ _ hout

theorem mkdir_subtree {env : Env} {p q : String} {w w' : World} {r : Option Err}
    (h : mkdir env q w = (w', r)) (hout : atOrUnder p q = false) :
    subtree w'.fs p = subtree w.fs p := by
  unfold mkdir at h
  split at h <;>
  · simp only [Prod.mk.injEq] at h
    obtain ⟨h1, -⟩ := h
    subst h1
    first
      | rfl
      | exact subtree_fsMkdir_outside _ _ _ hout

/-- Claim C14, counterexample: the volume is itself the snapshot `c0/s1`, with the
tree `one`.  Creating its snapshot `x` and restoring from it both succeed, but the
snapshot is written inside the volume's own directory and copied from the parent
`c0`; the restore deletes it with the rest of the directory, and the volume is
left empty, not with the tree it had when the snapshot was made. -/
theorem restore_of_snapshot_volume_differs :
    exSnapAsVol.IsSnapshot = true ∧
    (CreateVolumeSnapshot exEnv exDriver (destSnapshot exDriver exSnapAsVol "x") exSrcWorld).2 =
      none ∧
    (RestoreVolume exEnv exDriver exSnapAsVol "x"
      (CreateVolumeSnapshot exEnv exDriver (destSnapshot exDriver exSnapAsVol "x")
        exSrcWorld).1).2 = none ∧
    subtree exSrcWorld.fs exSnapAsVol.MountPath = [("", ["one"])] ∧
    subtree (RestoreVolume exEnv exDriver exSnapAsVol "x"
      (CreateVolumeSnapshot exEnv exDriver (destSnapshot exDriver exSnapAsVol "x")
        exSrcWorld).1).1.fs exSnapAsVol.MountPath = [("", [])] := by
  decide

/-- Claim C14, amended: for a volume `v` of the driver that is not itself a
snapshot, if `CreateVolumeSnapshot` of `v/s1` succeeds, the snapshot then holds
the whole tree of `v`; and if afterwards the tree at and below the mount path of
`v` is changed in any way (everything outside it staying as it is), a successful
`RestoreVolume v s1` leaves the whole tree of `v`, at and below its mount path,
as it was when the snapshot was created.  The restore reads the path the
snapshot was written to. -/
theorem snapshot_restore_roundtrip (env : Env) (d : Driver) (volType : VolumeType)
    (contentType : ContentType) (name : String) (config : Config) (s1 : String)
    (w w1 w2 w3 : World)
    (hns : (NewVolume d d.name volType contentType name config).IsSnapshot = false)
    (hc : CreateVolumeSnapshot env d
      (destSnapshot d (NewVolume d d.name volType contentType name config) s1) w = (w1, none))
    (hlive : fsRemoveAll w2.fs (NewVolume d d.name volType contentType name config).MountPath =
      fsRemoveAll w1.fs (NewVolume d d.name volType contentType name config).MountPath)
    (hr : RestoreVolume env d (NewVolume d d.name volType contentType name config) s1 w2 =
      (w3, none)) :
    subtree w1.fs
        (destSnapshot d (NewVolume d d.name volType contentType name config) s1).MountPath =
      subtree w.fs (NewVolume d d.name volType contentType name config).MountPath ∧
    getVolumeMountPath d.name volType (getSnapshotVolumeName name s1) =
      (destSnapshot d (NewVolume d d.name volType contentType name config) s1).MountPath ∧
    subtree w3.fs (NewVolume d d.name volType contentType name config).MountPath =
      subtree w.fs (NewVolume d d.name volType contentType name config).MountPath := by
  have hns' : isSnapshotName name = false := hns
  obtain ⟨X, Y, Z, hlp, hsp, hdp⟩ := layout_of_plain_name d.name volType name s1 hns'
  have hne : ('/' : Char) ≠ '-' := by decide
  have hne' : ('-' : Char) ≠ '/' := by decide
  -- the three paths
  have hliveP : (NewVolume d d.name volType contentType name config).MountPath =
      getVolumeMountPath d.name volType name := rfl
  have hsnapP : (destSnapshot d (NewVolume d d.name volType contentType name config) s1).MountPath
      = getVolumeMountPath d.name volType (getSnapshotVolumeName name s1) := rfl
  have hsplit := snapshot_name_split name s1 hns'
  have hparent : (instanceGetParentAndSnapshotName
      (destSnapshot d (NewVolume d d.name volType contentType name config) s1).name).1 = name := by
    show (instanceGetParentAndSnapshotName (getSnapshotVolumeName name s1)).1 = name
    rw [hsplit]
  have hlive' : fsRemoveAll w2.fs (getVolumeMountPath d.name volType name) =
      fsRemoveAll w1.fs (getVolumeMountPath d.name volType name) := hlive
  show subtree w1.fs (getVolumeMountPath d.name volType (getSnapshotVolumeName name s1)) =
      subtree w.fs (getVolumeMountPath d.name volType name) ∧
    getVolumeMountPath d.name volType (getSnapshotVolumeName name s1) =
      getVolumeMountPath d.name volType (getSnapshotVolumeName name s1) ∧
    subtree w3.fs (getVolumeMountPath d.name volType name) =
      subtree w.fs (getVolumeMountPath d.name volType name)
  -- creating the snapshot
  have hsnap : subtree w1.fs (getVolumeMountPath d.name volType (getSnapshotVolumeName name s1)) =
      subtree w.fs (getVolumeMountPath d.name volType name) := by
    unfold CreateVolumeSnapshot at hc
    simp only at hc
    split at hc
    · simp at hc
    · rename_i wa ha
      split at hc
      · simp at hc
      · rename_i wb hb
        split at hc
        · simp at hc
        · rename_i wc hcopy
          simp only [Prod.mk.injEq, and_true] at hc
          subst hc
          rw [hparent] at ha hcopy
          have ha' : createParentSnapshotDirIfMissing env d.name volType name w = (wa, none) := ha
          have hb' : mkdirAll env (getVolumeMountPath d.name volType
              (getSnapshotVolumeName name s1)) wa = (wb, none) := hb
          have hcopy' : localCopy env (getVolumeMountPath d.name volType name)
              (getVolumeMountPath d.name volType (getSnapshotVolumeName name s1)) wb =
              (wc, none) := hcopy
          have hdirOut : atOrUnder (getVolumeMountPath d.name volType name)
              (getVolumeSnapshotDir d.name volType name) = false := by
            cases hx : atOrUnder (getVolumeMountPath d.name volType name)
              (getVolumeSnapshotDir d.name volType name) with
            | false => rfl
            | true => exact absurd (atOrUnder_disjoint hne hlp hdp _ hx (atOrUnder_self _)) id
          have hsnapOut : atOrUnder (getVolumeMountPath d.name volType name)
              (getVolumeMountPath d.name volType (getSnapshotVolumeName name s1)) = false := by
            cases hx : atOrUnder (getVolumeMountPath d.name volType name)
              (getVolumeMountPath d.name volType (getSnapshotVolumeName name s1)) with
            | false => rfl
            | true => exact absurd (atOrUnder_disjoint hne hlp hsp _ hx (atOrUnder_self _)) id
          have hta : subtree wa.fs (getVolumeMountPath d.name volType name) =
              subtree w.fs (getVolumeMountPath d.name volType name) := by
            unfold createParentSnapshotDirIfMissing at ha'
            simp only at ha'
            split at ha'
            · exact mkdir_subtree ha' hdirOut
            · simp only [Prod.mk.injEq, and_true] at ha'
              subst ha'
              rfl
          have htb : subtree wb.fs (getVolumeMountPath d.name volType name) =
              subtree wa.fs (getVolumeMountPath d.name volType name) :=
            mkdirAll_subtree hb' hsnapOut
          rw [localCopy_fs hcopy',
            subtree_fsCopyTree _ _ _ (isUnder_false_of_disjoint hne' hsp hlp), htb, hta]
  refine ⟨hsnap, rfl, ?_⟩
  -- the change of the live tree keeps the snapshot
  have hkeep : subtree w2.fs (getVolumeMountPath d.name volType (getSnapshotVolumeName name s1)) =
      subtree w1.fs (getVolumeMountPath d.name volType (getSnapshotVolumeName name s1)) := by
    have hd : ∀ q, atOrUnder (getVolumeMountPath d.name volType (getSnapshotVolumeName name s1)) q
        = true → atOrUnder (getVolumeMountPath d.name volType name) q = true → False :=
      fun q h₁ h₂ => atOrUnder_disjoint hne' hsp hlp q h₁ h₂
    rw [← subtree_fsRemoveAll_other w2.fs _ _ hd, ← subtree_fsRemoveAll_other w1.fs _ _ hd,
      hlive']
  -- restoring
  unfold RestoreVolume at hr
  simp only at hr
  split at hr
  · simp at hr
  · split at hr
    · simp at hr
    · rename_i wr hcopy
      simp only [Prod.mk.injEq, and_true] at hr
      subst hr
      have hcopy' : localCopy env (getVolumeMountPath d.name volType
          (getSnapshotVolumeName name s1)) (getVolumeMountPath d.name volType name) w2 =
          (wr, none) := hcopy
      rw [localCopy_fs hcopy',
        subtree_fsCopyTree _ _ _ (isUnder_false_of_disjoint hne hlp hsp), hkeep, hsnap]

set_option maxRecDepth 100000 in
theorem snapshot_restore_roundtrip_witness :
    subtree exSrcWorld.fs exSrcVol.MountPath = [("", ["rootfs"])] ∧
    subtree exLiveChanged.fs exSrcVol.MountPath = [("", ["changed"]), ("/added", ["new"])] ∧
    subtree (RestoreVolume exEnv exDriver exSrcVol "x" exLiveChanged).1.fs exSrcVol.MountPath =
      subtree exSrcWorld.fs exSrcVol.MountPath :=
  ⟨by decide, by decide,
   (snapshot_restore_roundtrip exEnv exDriver .container .fs "c0" [] "x" exSrcWorld
    exAfterSnapshot exLiveChanged (RestoreVolume exEnv exDriver exSrcVol "x" exLiveChanged).1
    (by decide) (pair_eq (by decide)) (by decide) (pair_eq (by decide))).2.2⟩

theorem copiedInto_append (a b : List Event) :
    copiedInto (a ++ b) = copiedInto a ++ copiedInto b :=
  List.filterMap_append a b _

theorem deleteParentSnapshotDirIfEmpty_copies {poolName : String} {volType : VolumeType}
    {volName : String} {w w' : World} {r : Option Err}
    (h : deleteParentSnapshotDirIfEmpty poolName volType volName w = (w', r)) :
    ∃ evs, w'.trace = w.trace ++ evs ∧ copiedInto evs = [] := by
  unfold deleteParentSnapshotDirIfEmpty at h
  simp only [remove] at h
  split at h
  · split at h
    · simp only [Prod.mk.injEq] at h
      obtain ⟨h1, -⟩ := h
      subst h1
      exact ⟨[Event.remove _], rfl, rfl⟩
    · simp only [Prod.mk.injEq] at h
      obtain ⟨h1, -⟩ := h
      subst h1
      exact ⟨[], by simp, rfl⟩
  · simp only [Prod.mk.injEq] at h
    obtain ⟨h1, -⟩ := h
    subst h1
    exact ⟨[], by simp, rfl⟩

theorem deleteVolumeSnapshot_copies {d : Driver} {snapVol : Volume} {w w' : World}
    {r : Option Err} (h : DeleteVolumeSnapshot d snapVol w = (w', r)) :
    ∃ evs, w'.trace = w.trace ++ evs ∧ copiedInto evs = [] := by
  unfold DeleteVolumeSnapshot at h
  simp only [removeAll] at h
  split at h
  · rename_i w2 e heq
    have := (deleteParentSnapshotDirIfEmpty_result heq).1
    simp at this
  · rename_i w2 heq
    obtain ⟨evs, ht, hc⟩ := deleteParentSnapshotDirIfEmpty_copies heq
    simp only [Prod.mk.injEq] at h
    obtain ⟨h1, -⟩ := h
    subst h1
    refine ⟨Event.removeAll snapVol.MountPath :: evs, ?_, ?_⟩
    · rw [ht]; simp [World.log]
    · simp only [copiedInto, List.filterMap_cons] at hc ⊢
      exact hc

theorem revertSnapshots_copies (d : Driver) (vol : Volume) (volPath : String)
    (rs : List String) (w : World) :
    ∃ evs, (revertSnapshots d vol volPath rs w).trace = w.trace ++ evs ∧ copiedInto evs = [] := by
  have loop : ∀ (rs : List String) (w : World),
      ∃ evs, (rs.foldl (fun w snapName =>
        (DeleteVolumeSnapshot d (destSnapshot d vol snapName) w).1) w).trace = w.trace ++ evs ∧
        copiedInto evs = [] := by
    intro rs
    induction rs with
    | nil => intro w; exact ⟨[], by simp, rfl⟩
    | cons a rs ih =>
      intro w
      simp only [List.foldl_cons]
      have hx : DeleteVolumeSnapshot d (destSnapshot d vol a) w =
          ((DeleteVolumeSnapshot d (destSnapshot d vol a) w).1,
            (DeleteVolumeSnapshot d (destSnapshot d vol a) w).2) := rfl
      obtain ⟨evs, ht, hc⟩ := deleteVolumeSnapshot_copies hx
      obtain ⟨evs2, ht2, hc2⟩ := ih (DeleteVolumeSnapshot d (destSnapshot d vol a) w).1
      exact ⟨evs ++ evs2, by rw [ht2, ht, List.append_assoc],
        by rw [copiedInto_append, hc, hc2]; rfl⟩
  obtain ⟨evs, ht, hc⟩ := loop rs w
  unfold revertSnapshots
  simp only [removeAll]
  refine ⟨evs ++ [Event.removeAll volPath], ?_, ?_⟩
  · simp only [World.log]
    rw [← List.append_assoc]
    congr 1
  · rw [copiedInto_append, hc]
    rfl

theorem initQuota_copies (env : Env) (path : String) (volID : Int) (w : World) :
    (initQuota env path volID w).1.fs = w.fs ∧
    ∃ evs, (initQuota env path volID w).1.trace = w.trace ++ evs ∧ copiedInto evs = [] := by
  by_cases hz : volID = 0
  · subst hz
    exact ⟨rfl, [], by simp [initQuota], rfl⟩
  · rw [initQuota_of_ne env path volID w hz]
    by_cases hq : env.quotaOn path = true
    · rw [if_pos hq]
      exact ⟨rfl, _, rfl, rfl⟩
    · rw [if_neg hq]
      exact ⟨rfl, [Event.supported path], rfl, rfl⟩

theorem setQuota_copies (env : Env) (d : Driver) (path size : String) (volID : Int)
    (w : World) :
    (setQuota env d path volID size w).1.fs = w.fs ∧
    ∃ evs, (setQuota env d path volID size w).1.trace = w.trace ++ evs ∧
      copiedInto evs = [] := by
  by_cases hz : volID = 0
  · subst hz
    exact ⟨rfl, [], by simp [setQuota], rfl⟩
  · cases hp : (parseByteSizeString env (quotaSize d size) w).2 with
    | error e =>
      rw [setQuota_parse_error env d path size volID w hz e hp]
      exact ⟨rfl, [Event.parseSize (quotaSize d size)], rfl, rfl⟩
    | ok n =>
      rw [setQuota_parse_ok env d path size volID w hz n hp]
      by_cases hq : env.quotaOn path = true
      · rw [if_pos hq]
        exact ⟨rfl, _, rfl, rfl⟩
      · rw [if_neg hq]
        exact ⟨rfl, _, rfl, rfl⟩
/-- A `MountTask` whose task is one tree copy into `dst` copies into nothing else
and changes the tree only through that copy. -/
theorem mountTask_copy_copies {env : Env} {v : Volume} {dst : String} {s : Unit} {w w' : World}
    {r : Option Err}
    (h : v.MountTask env (fun srcMountPath (_ : Unit) w =>
      ((), localCopy env srcMountPath dst w)) () w = (s, w', r)) :
    ∃ evs, w'.trace = w.trace ++ evs ∧ ∀ p ∈ copiedInto evs, p = dst := by
  rcases mountTask_result h with ⟨-, ht⟩ | ⟨-, -, hw, -⟩ | ⟨-, -, wt, ht, hw⟩
  · simp only [Prod.mk.injEq, true_and] at ht
    obtain ⟨-, -, htr⟩ := localCopy_result ht
    exact ⟨_, htr, by simp [copiedInto]⟩
  · exact ⟨[Event.mountReadOnly v.MountPath], by rw [hw]; rfl, by simp [copiedInto]⟩
  · simp only [Prod.mk.injEq, true_and] at ht
    obtain ⟨-, -, htr⟩ := localCopy_result ht
    refine ⟨[Event.mountReadOnly v.MountPath, Event.localCopy v.MountPath dst,
      Event.unmount v.MountPath], ?_, by simp [copiedInto]⟩
    rw [hw]
    simp [World.log, htr]

/-- The tree copies of `CreateVolumeSnapshot` go into the snapshot path only, and
when it fails the snapshot path it copied into is gone. -/
theorem createVolumeSnapshot_copies {env : Env} {d : Driver} {snapVol : Volume} {w w' : World}
    {r : Option Err} (h : CreateVolumeSnapshot env d snapVol w = (w', r)) :
    ∃ evs, w'.trace = w.trace ++ evs ∧
      ∀ p ∈ copiedInto evs, p = snapVol.MountPath ∧ (r ≠ none → pathExists w'.fs p = false) := by
  unfold CreateVolumeSnapshot at h
  simp only at h
  have hpar : ∀ {wa : World} {ra : Option Err},
      createParentSnapshotDirIfMissing env d.name snapVol.volType
        (instanceGetParentAndSnapshotName snapVol.name).1 w = (wa, ra) →
      ∃ evs, wa.trace = w.trace ++ evs ∧ copiedInto evs = [] := by
    intro wa ra ha
    unfold createParentSnapshotDirIfMissing at ha
    simp only at ha
    split at ha
    · obtain ⟨-, -, c⟩ := mkdir_result ha
      exact ⟨_, c, rfl⟩
    · simp only [Prod.mk.injEq] at ha
      obtain ⟨h1, -⟩ := ha
      subst h1
      exact ⟨[], by simp, rfl⟩
  split at h
  · rename_i wa e ha
    simp only [Prod.mk.injEq] at h
    obtain ⟨h1, -⟩ := h
    subst h1
    obtain ⟨evs, ht, hc⟩ := hpar ha
    exact ⟨evs, ht, by rw [hc]; simp⟩
  · rename_i wa ha
    obtain ⟨evs1, ht1, hc1⟩ := hpar ha
    split at h
    · rename_i wb e hb
      simp only [Prod.mk.injEq] at h
      obtain ⟨h1, -⟩ := h
      subst h1
      obtain ⟨-, -, ht2⟩ := mkdirAll_result hb
      refine ⟨evs1 ++ [Event.mkdirAll snapVol.MountPath], by rw [ht2, ht1, List.append_assoc], ?_⟩
      rw [copiedInto_append, hc1]
      simp [copiedInto]
    · rename_i wb hb
      obtain ⟨-, -, ht2⟩ := mkdirAll_result hb
      split at h
      · rename_i wc e hcopy
        simp only [Prod.mk.injEq] at h
        obtain ⟨h1, h2⟩ := h
        subst h1 h2
        obtain ⟨-, -, ht3⟩ := localCopy_result hcopy
        refine ⟨evs1 ++ [Event.mkdirAll snapVol.MountPath, Event.localCopy (getVolumeMountPath d.name snapVol.volType
          (instanceGetParentAndSnapshotName snapVol.name).1) snapVol.MountPath,
          Event.removeAll snapVol.MountPath], ?_, ?_⟩
        · simp only [removeAll, World.log]
          rw [ht3, ht2, ht1]
          simp
        · rw [copiedInto_append, hc1]
          intro p hp
          have hp' : p = snapVol.MountPath := by simpa [copiedInto] using hp
          subst hp'
          exact ⟨rfl, fun _ => pathExists_fsRemoveAll _ _⟩
      · rename_i wc hcopy
        simp only [Prod.mk.injEq] at h
        obtain ⟨h1, h2⟩ := h
        subst h1 h2
        obtain ⟨-, -, ht3⟩ := localCopy_result hcopy
        refine ⟨evs1 ++ [Event.mkdirAll snapVol.MountPath, Event.localCopy (getVolumeMountPath d.name snapVol.volType
          (instanceGetParentAndSnapshotName snapVol.name).1) snapVol.MountPath],
          ?_, ?_⟩
        · rw [ht3, ht2, ht1]
          simp
        · rw [copiedInto_append, hc1]
          intro p hp
          have hp' : p = snapVol.MountPath := by simpa [copiedInto] using hp
          exact ⟨hp', fun hne => absurd rfl hne⟩

/-- The snapshot loop of `copyVolume`: every tree copy goes into the destination,
or into a snapshot that is recorded in `revertSnaps`, or into a snapshot path
that is gone again when the loop fails. -/
theorem copyVolumeSnapshots_copies (env : Env) (d : Driver) (vol : Volume) (mountPath : String)
    (snaps : List Volume) :
    ∀ (init : List String) (w : World) (rs : List String) (w' : World) (r : Option Err),
      copyVolumeSnapshots env d vol mountPath snaps init w = (rs, w', r) →
      ∃ evs added, w'.trace = w.trace ++ evs ∧ rs = init ++ added ∧
        ∀ p ∈ copiedInto evs, p = mountPath ∨
          p ∈ added.map (fun s => (destSnapshot d vol s).MountPath) ∨
          (r ≠ none ∧ pathExists w'.fs p = false) := by
  induction snaps with
  | nil =>
    intro init w rs w' r h
    simp only [copyVolumeSnapshots, Prod.mk.injEq] at h
    obtain ⟨h1, h2, -⟩ := h
    subst h1 h2
    exact ⟨[], [], by simp, by simp, by simp [copiedInto]⟩
  | cons a snaps ih =>
    intro init w rs w' r h
    simp only [copyVolumeSnapshots] at h
    have hmt : a.MountTask env (fun srcMountPath (_ : Unit) w =>
          ((), localCopy env srcMountPath mountPath w)) () w =
        ((a.MountTask env (fun srcMountPath (_ : Unit) w =>
          ((), localCopy env srcMountPath mountPath w)) () w).1,
         (a.MountTask env (fun srcMountPath (_ : Unit) w =>
          ((), localCopy env srcMountPath mountPath w)) () w).2.1,
         (a.MountTask env (fun srcMountPath (_ : Unit) w =>
          ((), localCopy env srcMountPath mountPath w)) () w).2.2) := rfl
    obtain ⟨evs1, ht1, hc1⟩ := mountTask_copy_copies hmt
    split at h
    · rename_i w2 e hcs
      simp only [Prod.mk.injEq] at h
      obtain ⟨h1, h2, h3⟩ := h
      subst h1 h2 h3
      obtain ⟨evs2, ht2, hc2⟩ := createVolumeSnapshot_copies hcs
      refine ⟨evs1 ++ evs2, [], by rw [ht2, ht1, List.append_assoc], by simp, ?_⟩
      intro p hp
      rw [copiedInto_append, List.mem_append] at hp
      rcases hp with hp | hp
      · exact Or.inl (hc1 p hp)
      · exact Or.inr (Or.inr ⟨by simp, (hc2 p hp).2 (by simp)⟩)
    · rename_i w2 hcs
      obtain ⟨evs2, ht2, hc2⟩ := createVolumeSnapshot_copies hcs
      obtain ⟨evs3, added, ht3, hrs, hc3⟩ := ih _ _ _ _ _ h
      refine ⟨evs1 ++ evs2 ++ evs3, snapshotLabel a :: added, ?_, ?_, ?_⟩
      · rw [ht3, ht2, ht1]
        simp only [List.append_assoc]
      · rw [hrs]
        simp [snapshotLabel]
      · intro p hp
        rw [copiedInto_append, copiedInto_append, List.mem_append, List.mem_append] at hp
        rcases hp with (hp | hp) | hp
        · exact Or.inl (hc1 p hp)
        · refine Or.inr (Or.inl ?_)
          rw [(hc2 p hp).1]
          exact List.mem_map.mpr ⟨snapshotLabel a, List.mem_cons_self _ _, rfl⟩
        · rcases hc3 p hp with h1 | h2 | h3
          · exact Or.inl h1
          · refine Or.inr (Or.inl ?_)
            obtain ⟨s, hs, hps⟩ := List.mem_map.mp h2
            exact List.mem_map.mpr ⟨s, List.mem_cons_of_mem _ hs, hps⟩
          · exact Or.inr (Or.inr h3)
/-- The task of `copyVolume`: every tree copy goes into the destination, or into
a snapshot recorded in `revertSnaps`, or into a snapshot path that is gone
again. -/
theorem copyVolumeTask_copies {env : Env} {d : Driver} {vol srcVol : Volume}
    {srcSnapshots : List Volume} {volID : Int} {volPath mountPath : String} {w w' : World}
    {rs : List String} {r : Option Err}
    (h : copyVolumeTask env d vol srcVol srcSnapshots volID volPath mountPath [] w = (rs, w', r)) :
    ∃ evs, w'.trace = w.trace ++ evs ∧
      ∀ p ∈ copiedInto evs, p = mountPath ∨
        p ∈ rs.map (fun s => (destSnapshot d vol s).MountPath) ∨
        pathExists w'.fs p = false := by
  unfold copyVolumeTask at h
  have key : ∀ x : List String × World × Option Err,
      (if srcSnapshots.length > 0 ∧ (!srcVol.IsSnapshot) = true then
        copyVolumeSnapshots env d vol mountPath srcSnapshots [] w else ([], w, none)) = x →
      ∃ evs, x.2.1.trace = w.trace ++ evs ∧
        ∀ p ∈ copiedInto evs, p = mountPath ∨
          p ∈ x.1.map (fun s => (destSnapshot d vol s).MountPath) ∨
          (x.2.2 ≠ none ∧ pathExists x.2.1.fs p = false) := by
    intro x hx
    split at hx
    · obtain ⟨evs, added, ht, hrs, hc⟩ := copyVolumeSnapshots_copies env d vol mountPath
        srcSnapshots [] w x.1 x.2.1 x.2.2 hx
      refine ⟨evs, ht, ?_⟩
      rw [hrs, List.nil_append]
      exact hc
    · rw [← hx]
      exact ⟨[], by simp, by simp [copiedInto]⟩
  split at h
  · rename_i rs1 w1 e heq
    obtain ⟨evs, ht, hc⟩ := key _ heq
    simp only [Prod.mk.injEq] at h
    obtain ⟨h1, h2, -⟩ := h
    subst h1 h2
    refine ⟨evs, ht, ?_⟩
    intro p hp
    rcases hc p hp with h1 | h2 | h3
    · exact Or.inl h1
    · exact Or.inr (Or.inl h2)
    · exact Or.inr (Or.inr h3.2)
  · rename_i rs1 w1 heq
    obtain ⟨evs1, ht1, hc1⟩ := key _ heq
    simp only at ht1 hc1
    have hc1' : ∀ p ∈ copiedInto evs1, p = mountPath ∨
        p ∈ rs1.map (fun s => (destSnapshot d vol s).MountPath) := by
      intro p hp
      rcases hc1 p hp with h1 | h2 | h3
      · exact Or.inl h1
      · exact Or.inr h2
      · exact absurd rfl h3.1
    obtain ⟨-, evsq, htq, hcq⟩ := initQuota_copies env volPath volID w1
    split at h
    · rename_i w2 e hq
      simp only [Prod.mk.injEq] at h
      obtain ⟨h1, h2, -⟩ := h
      subst h1 h2
      have hw2 : (initQuota env volPath volID w1).1 = w2 := by rw [hq]
      rw [hw2] at htq
      refine ⟨evs1 ++ evsq, by rw [htq, ht1, List.append_assoc], ?_⟩
      intro p hp
      rw [copiedInto_append, hcq, List.append_nil] at hp
      rcases hc1' p hp with h1 | h2
      · exact Or.inl h1
      · exact Or.inr (Or.inl h2)
    · rename_i w2 hq
      have hw2 : (initQuota env volPath volID w1).1 = w2 := by rw [hq]
      rw [hw2] at htq
      obtain ⟨-, evss, hts, hcs⟩ := setQuota_copies env d volPath (vol.config.get "size") volID w2
      split at h
      · rename_i w3 e hs
        simp only [Prod.mk.injEq] at h
        obtain ⟨h1, h2, -⟩ := h
        subst h1 h2
        have hw3 : (setQuota env d volPath volID (vol.config.get "size") w2).1 = w3 := by rw [hs]
        rw [hw3] at hts
        refine ⟨evs1 ++ evsq ++ evss, by rw [hts, htq, ht1]; simp only [List.append_assoc], ?_⟩
        intro p hp
        rw [copiedInto_append, copiedInto_append, hcq, hcs, List.append_nil, List.append_nil]
          at hp
        rcases hc1' p hp with h1 | h2
        · exact Or.inl h1
        · exact Or.inr (Or.inl h2)
      · rename_i w3 hs
        have hw3 : (setQuota env d volPath volID (vol.config.get "size") w2).1 = w3 := by rw [hs]
        rw [hw3] at hts
        split at h
        rename_i s4 w4 r4 hmt
        simp only [Prod.mk.injEq] at h
        obtain ⟨h1, h2, -⟩ := h
        subst h1 h2
        obtain ⟨evsf, htf, hcf⟩ := mountTask_copy_copies hmt
        refine ⟨evs1 ++ evsq ++ evss ++ evsf,
          by rw [htf, hts, htq, ht1]; simp only [List.append_assoc], ?_⟩
        intro p hp
        rw [copiedInto_append, copiedInto_append, copiedInto_append, hcq, hcs, List.append_nil,
          List.append_nil, List.mem_append] at hp
        rcases hp with hp | hp
        · rcases hc1' p hp with h1 | h2
          · exact Or.inl h1
          · exact Or.inr (Or.inl h2)
        · exact Or.inl (hcf p hp)

/-- Claim C2: when `copyVolume` fails inside its task with the snapshots `rs`
registered so far (the labels of a prefix of the source snapshots), it returns
the error; none of the destination snapshots in `rs` and not the destination
mount path exist afterwards; the removals made are those of the snapshots of
`rs` in the order they were created followed by that of the destination
directory; and every directory the call copied a tree into is gone afterwards,
so that no snapshot it registered (registration ends with the copy into the
snapshot path) is left, whether recorded in `rs` or not. -/
theorem copyVolume_failure_reverts (env : Env) (d : Driver) (vol srcVol : Volume)
    (srcSnapshots : List Volume) (w w1 w2 w3 : World) (volID : Int) (rs : List String) (e : Err)
    (hct : vol.contentType = .fs ∧ srcVol.contentType = .fs)
    (hv : getVolID env vol.volType vol.name w = (w1, .ok volID))
    (hmk : vol.CreateMountPath env w1 = (w2, none))
    (ht : vol.MountTask env (copyVolumeTask env d vol srcVol srcSnapshots volID vol.MountPath)
      [] w2 = (rs, w3, some e)) :
    (copyVolume env d vol srcVol srcSnapshots w).2 = some e ∧
    (∃ k, rs = (srcSnapshots.take k).map snapshotLabel) ∧
    (∀ s ∈ rs, pathExists (copyVolume env d vol srcVol srcSnapshots w).1.fs
      (destSnapshot d vol s).MountPath = false) ∧
    pathExists (copyVolume env d vol srcVol srcSnapshots w).1.fs vol.MountPath = false ∧
    (∃ evs, (copyVolume env d vol srcVol srcSnapshots w).1.trace = w3.trace ++ evs ∧
      removals evs = rs.map (fun s => (destSnapshot d vol s).MountPath) ++ [vol.MountPath]) ∧
    (∃ evs, (copyVolume env d vol srcVol srcSnapshots w).1.trace = w.trace ++ evs ∧
      ∀ p ∈ copiedInto evs,
        pathExists (copyVolume env d vol srcVol srcSnapshots w).1.fs p = false) := by
  have hrun : copyVolume env d vol srcVol srcSnapshots w =
      (revertSnapshots d vol vol.MountPath rs w3, some e) := by
    unfold copyVolume
    simp only [hct.1, hct.2, ne_eq, not_true_eq_false, or_self, if_false, hv, hmk, ht]
  obtain ⟨hsub, hp, hvp, -, -, hev⟩ := revertSnapshots_result d vol rs w3
  rw [hrun]
  refine ⟨rfl, ?_, hp, hvp, hev, ?_⟩
  · rcases mountTask_state ht with h0 | ⟨wm, wt, htask⟩
    · exact ⟨0, by simp [h0]⟩
    · exact copyVolumeTask_labels htask
  · obtain ⟨evsR, htR, hcR⟩ := revertSnapshots_copies d vol vol.MountPath rs w3
    have hw1 : w1.trace = w.trace ++ [Event.getVolID vol.volType vol.name] := by
      simp only [getVolID, Prod.mk.injEq] at hv
      rw [← hv.1]
      rfl
    obtain ⟨-, -, hw2⟩ := mkdirAll_result hmk
    have htask : ∃ evsT, w3.trace = w2.trace ++ evsT ∧
        ∀ p ∈ copiedInto evsT, p = vol.MountPath ∨
          p ∈ rs.map (fun s => (destSnapshot d vol s).MountPath) ∨
          pathExists w3.fs p = false := by
      rcases mountTask_result ht with ⟨-, h1⟩ | ⟨-, -, hw, -⟩ | ⟨-, -, wt, h1, hw⟩
      · exact copyVolumeTask_copies h1
      · exact ⟨[Event.mountReadOnly vol.MountPath], by rw [hw]; rfl, by simp [copiedInto]⟩
      · obtain ⟨evs, hte, hce⟩ := copyVolumeTask_copies h1
        refine ⟨[Event.mountReadOnly vol.MountPath] ++ evs ++ [Event.unmount vol.MountPath],
          ?_, ?_⟩
        · rw [hw]
          simp [World.log, hte]
        · intro p hp
          have hp' : p ∈ copiedInto evs := by
            simpa [copiedInto_append, copiedInto] using hp
          rw [hw]
          exact hce p hp'
    obtain ⟨evsT, htT, hcT⟩ := htask
    refine ⟨[Event.getVolID vol.volType vol.name, Event.mkdirAll vol.MountPath] ++ evsT ++ evsR,
      ?_, ?_⟩
    · rw [htR, htT, hw2, hw1]
      simp [Volume.CreateMountPath]
    · intro p hpm
      rw [copiedInto_append, copiedInto_append, hcR, List.append_nil] at hpm
      have hpm' : p ∈ copiedInto evsT := by
        simpa [copiedInto] using hpm
      rcases hcT p hpm' with h1 | h2 | h3
      · rw [h1]; exact hvp
      · obtain ⟨s, hs, hps⟩ := List.mem_map.mp h2
        rw [← hps]
        exact hp s hs
      · exact pathExists_sublist hsub p h3

set_option maxRecDepth 100000 in
theorem copyVolume_failure_reverts_witness :
    ((copyVolume exEnvFailSecond exDriver exVol exSrcVol exSrcSnapshots exSrcWorld).2 =
      some (Err.external "rsync failed") ∧
    pathExists (copyVolume exEnvFailSecond exDriver exVol exSrcVol exSrcSnapshots exSrcWorld).1.fs
      (destSnapshot exDriver exVol "s1").MountPath = false ∧
    pathExists (copyVolume exEnvFailSecond exDriver exVol exSrcVol exSrcSnapshots exSrcWorld).1.fs
      (destSnapshot exDriver exVol "s2").MountPath = false ∧
    pathExists (copyVolume exEnvFailSecond exDriver exVol exSrcVol exSrcSnapshots exSrcWorld).1.fs
      exVol.MountPath = false) ∧
    ((copyVolume exEnvFailFinalCopy exDriver exVol exSrcVol exSrcSnapshots exSrcWorld).2 =
      some (Err.external "rsync failed") ∧
    pathExists (copyVolume exEnvFailFinalCopy exDriver exVol exSrcVol exSrcSnapshots
      exSrcWorld).1.fs (destSnapshot exDriver exVol "s1").MountPath = false ∧
    pathExists (copyVolume exEnvFailFinalCopy exDriver exVol exSrcVol exSrcSnapshots
      exSrcWorld).1.fs (destSnapshot exDriver exVol "s2").MountPath = false ∧
    pathExists (copyVolume exEnvFailFinalCopy exDriver exVol exSrcVol exSrcSnapshots
      exSrcWorld).1.fs exVol.MountPath = false) := by
  obtain ⟨a1, -, a3, a4, -, evsA, htA, hallA⟩ :=
    copyVolume_failure_reverts exEnvFailSecond exDriver exVol exSrcVol exSrcSnapshots
      exSrcWorld _ _ _ 1 ["s1"] (Err.external "rsync failed") ⟨rfl, rfl⟩ rfl
      (pair_eq (by decide)) (triple_eq (by decide) (by decide))
  obtain ⟨b1, -, b3, b4, -, -⟩ :=
    copyVolume_failure_reverts exEnvFailFinalCopy exDriver exVol exSrcVol exSrcSnapshots
      exSrcWorld _ _ _ 1 ["s1", "s2"] (Err.external "rsync failed") ⟨rfl, rfl⟩ rfl
      (pair_eq (by decide)) (triple_eq (by decide) (by decide))
  have hevs : evsA =
      (copyVolume exEnvFailSecond exDriver exVol exSrcVol exSrcSnapshots exSrcWorld).1.trace := by
    rw [htA]
    rfl
  refine ⟨⟨a1, a3 "s1" (by decide), hallA _ ?_, a4⟩,
    ⟨b1, b3 "s1" (by decide), b3 "s2" (by decide), b4⟩⟩
  rw [hevs]
  decide

end DirDriver
